import Mathlib

/-!
# Heavy Rain (GBA demo): rain simulation, input handling and colour blending

A shallow embedding of `src/heavy_rain_ai.c`.

* Machine integers are `Int`/`Nat` with explicit wrapping (`toS16`, `toS8`, `toU8`, `% 65536`).
* The global variables of the program are the fields of `Game`; every function of the
  program that mutates globals is a function `Game → Game`.
* `rand()` is an arbitrary stream `rand : Nat → Nat` of non-negative results; the field
  `randCalls` counts the calls made so far, so the next call returns `rand s.randCalls`.
* The hardware register `REG_KEYINPUT` is an input `reg` of `HandleInput`, read once per call.
* The array `raindrops[MAX_RAINDROPS]` is a list that every operation keeps at
  `MAX_RAINDROPS` elements; the loops `for (i = 0; i < MAX_RAINDROPS; i++)` traverse it in
  index order.
* The drawing functions are the lists of their stores to `videoBuffer`, in program order
  (`PixelWrite`), and `store` applies such a list to the frame buffer memory. A `char` is
  its byte, a string the list of its bytes.
-/

namespace HeavyRain

/-! ## Machine integer conversions -/

/-- Conversion to `s16` (two's complement wrap). -/
def toS16 (v : Int) : Int := (v + 32768) % 65536 - 32768

/-- Conversion to `s8` (two's complement wrap). -/
def toS8 (v : Int) : Int := (v + 128) % 256 - 128

/-- Conversion to `u8`. -/
def toU8 (v : Int) : Nat := (v % 256).toNat

/-! ## Constants -/

def SCREEN_WIDTH : Int := 240
def SCREEN_HEIGHT : Int := 160
def MAX_RAINDROPS : Nat := 150
def MIN_LENGTH : Int := 2
def MAX_LENGTH : Int := 5
def DEFAULT_RAIN_SPEED : Nat := 4
def MAX_WIND : Int := 3
def THUNDER_DURATION : Nat := 30
def THUNDER_SOFT : Nat := 8
def THUNDER_HEAVY : Nat := 16
def RAIN_SPEED_SLOW : Nat := 2
def RAIN_SPEED_MEDIUM : Nat := 4
def RAIN_SPEED_FAST : Nat := 6
def NUM_BG_COLORS : Nat := 4

/-- Modelled from the spec: the button bits of libgba's `gba_input.h`, which is not under
`src/`. The input source is a bitmask over the ten buttons; the values are the bit
assignment of the GBA key register. -/
def KEY_A : Nat := 0x0001
/-- Modelled from the spec: button bit of `gba_input.h` (see `KEY_A`). -/
def KEY_B : Nat := 0x0002
/-- Modelled from the spec: button bit of `gba_input.h` (see `KEY_A`). -/
def KEY_SELECT : Nat := 0x0004
/-- Modelled from the spec: button bit of `gba_input.h` (see `KEY_A`). -/
def KEY_START : Nat := 0x0008
/-- Modelled from the spec: button bit of `gba_input.h` (see `KEY_A`). -/
def KEY_RIGHT : Nat := 0x0010
/-- Modelled from the spec: button bit of `gba_input.h` (see `KEY_A`). -/
def KEY_LEFT : Nat := 0x0020
/-- Modelled from the spec: button bit of `gba_input.h` (see `KEY_A`). -/
def KEY_UP : Nat := 0x0040
/-- Modelled from the spec: button bit of `gba_input.h` (see `KEY_A`). -/
def KEY_DOWN : Nat := 0x0080
/-- Modelled from the spec: button bit of `gba_input.h` (see `KEY_A`). -/
def KEY_R : Nat := 0x0100
/-- Modelled from the spec: button bit of `gba_input.h` (see `KEY_A`). -/
def KEY_L : Nat := 0x0200

/-! ## Data model -/

/-- The enum `GameState`. -/
inductive GameState where
  | STATE_MENU
  | STATE_RAIN
deriving DecidableEq, Repr

/-- The struct `Raindrop`: `s16 x, y; u8 length; s8 speed; u8 alpha`. -/
structure Raindrop where
  x : Int
  y : Int
  length : Nat
  speed : Int
  alpha : Nat
deriving DecidableEq, Repr

/-- The global variables of the program, and the number of `rand()` calls made so far. -/
structure Game where
  raindrops : List Raindrop
  gameState : GameState
  windForce : Int
  thunderTimer : Nat
  thunderIntensity : Nat
  rainSpeed : Nat
  bgColorIndex : Nat
  prevKeys : Nat
  transitionTimer : Nat
  menuAlpha : Nat
  frameCounter : Nat
  randCalls : Nat
deriving DecidableEq, Repr

/-- The zero-initialised `Raindrop` of the static array. -/
def zeroDrop : Raindrop := { x := 0, y := 0, length := 0, speed := 0, alpha := 0 }

/-- The globals as their initialisers leave them, before `main` runs. -/
def staticInit : Game :=
  { raindrops := List.replicate MAX_RAINDROPS zeroDrop
    gameState := GameState.STATE_MENU
    windForce := 0
    thunderTimer := 0
    thunderIntensity := 0
    rainSpeed := DEFAULT_RAIN_SPEED
    bgColorIndex := 0
    prevKeys := 0
    transitionTimer := 0
    menuAlpha := 31
    frameCounter := 0
    randCalls := 0 }

/-! ## Colour blending -/

/-- The macro `RGB15(r,g,b)`. -/
def RGB15 (r g b : Nat) : Nat := r ||| (g <<< 5) ||| (b <<< 10)

/-- One channel of `BlendColors`: `(c1 * (31 - alpha) + c2 * alpha) / 31` in `int`
(C division truncates toward zero), stored in a `u8`. -/
def blendChannel (c1 c2 alpha : Nat) : Nat :=
  toU8 (Int.tdiv ((c1 : Int) * (31 - (alpha : Int)) + (c2 : Int) * (alpha : Int)) 31)

/-- The function `BlendColors(u16 c1, u16 c2, u8 alpha)`, result converted to `u16`. -/
def BlendColors (c1 c2 alpha : Nat) : Nat :=
  let r1 := (c1 >>> 0) &&& 0x1F
  let g1 := (c1 >>> 5) &&& 0x1F
  let b1 := (c1 >>> 10) &&& 0x1F
  let r2 := (c2 >>> 0) &&& 0x1F
  let g2 := (c2 >>> 5) &&& 0x1F
  let b2 := (c2 >>> 10) &&& 0x1F
  let r := blendChannel r1 r2 alpha
  let g := blendChannel g1 g2 alpha
  let b := blendChannel b1 b2 alpha
  RGB15 r g b % 65536

/-! ## Rain particles -/

/-- Body of the loop of `InitRain` for one particle; `k` is the number of `rand()` calls
made before it. -/
def initDrop (rand : Nat → Nat) (rainSpeed : Nat) (d : Raindrop) (k : Nat) : Raindrop :=
  { d with
    x := toS16 ((rand k : Int) % SCREEN_WIDTH)
    y := toS16 (-((rand (k + 1) : Int) % 100))
    length := toU8 (MIN_LENGTH + (rand (k + 2) : Int) % (MAX_LENGTH - MIN_LENGTH + 1))
    speed := toS8 ((rainSpeed : Int) + (rand (k + 3) : Int) % 2) }

/-- The loop of `InitRain` over the particles, in index order. -/
def initLoop (rand : Nat → Nat) (rainSpeed : Nat) : List Raindrop → Nat → List Raindrop
  | [], _ => []
  | d :: ds, k => initDrop rand rainSpeed d k :: initLoop rand rainSpeed ds (k + 4)

/-- The function `InitRain`. -/
def InitRain (rand : Nat → Nat) (s : Game) : Game :=
  { s with
    rainSpeed := RAIN_SPEED_MEDIUM
    raindrops := initLoop rand RAIN_SPEED_MEDIUM s.raindrops s.randCalls
    randCalls := s.randCalls + 4 * s.raindrops.length
    windForce := 0
    thunderTimer := 0 }

/-- Body of the loop of `UpdateRain` for one particle: the new particle and the number of
`rand()` calls made after it. -/
def updateDrop (rand : Nat → Nat) (windForce : Int) (rainSpeed : Nat) (d : Raindrop)
    (k : Nat) : Raindrop × Nat :=
  let d1 := { d with y := toS16 (d.y + d.speed) }
  let d2 := { d1 with x := toS16 (d1.x + windForce) }
  let r : Raindrop × Nat :=
    if d2.y ≥ SCREEN_HEIGHT then
      ({ d2 with
          y := toS16 (-((rand k : Int) % 50))
          x := toS16 ((rand (k + 1) : Int) % (SCREEN_WIDTH + 40) - 20)
          length := toU8 (MIN_LENGTH + (rand (k + 2) : Int) % (MAX_LENGTH - MIN_LENGTH + 1))
          speed := toS8 ((rainSpeed : Int) + (rand (k + 3) : Int) % 2) }, k + 4)
    else (d2, k)
  let d3 := r.1
  let d4 :=
    if d3.x ≥ SCREEN_WIDTH + 10 then { d3 with x := -10 }
    else if d3.x < -10 then { d3 with x := toS16 (SCREEN_WIDTH + 9) }
    else d3
  (d4, r.2)

/-- The loop of `UpdateRain` over the particles, in index order. -/
def updateLoop (rand : Nat → Nat) (windForce : Int) (rainSpeed : Nat) :
    List Raindrop → Nat → List Raindrop × Nat
  | [], k => ([], k)
  | d :: ds, k =>
    let r := updateDrop rand windForce rainSpeed d k
    let rest := updateLoop rand windForce rainSpeed ds r.2
    (r.1 :: rest.1, rest.2)

/-- The function `UpdateRain`. The decrement of the `u8` timer is guarded by `> 0`, so it
cannot wrap. -/
def UpdateRain (rand : Nat → Nat) (s : Game) : Game :=
  let r := updateLoop rand s.windForce s.rainSpeed s.raindrops s.randCalls
  let s1 := { s with raindrops := r.1, randCalls := r.2 }
  if s1.thunderTimer > 0 then { s1 with thunderTimer := s1.thunderTimer - 1 } else s1

/-- The function `TriggerThunder`. -/
def TriggerThunder (intensity : Nat) (s : Game) : Game :=
  { s with thunderTimer := THUNDER_DURATION, thunderIntensity := intensity }

/-- The function `UpdateGame`; `frameCounter` is a `u32`, `menuAlpha` a `u8`. -/
def UpdateGame (rand : Nat → Nat) (s : Game) : Game :=
  let s1 := { s with frameCounter := (s.frameCounter + 1) % 4294967296 }
  match s1.gameState with
  | GameState.STATE_MENU =>
    { s1 with menuAlpha := (20 + ((s1.frameCounter % 60) * 11) / 60) % 256 }
  | GameState.STATE_RAIN =>
    let s2 := UpdateRain rand s1
    if s2.thunderTimer > 0 then { s2 with thunderTimer := s2.thunderTimer - 1 } else s2

/-! ## Input -/

/-- The expression `~REG_KEYINPUT` restricted to the sixteen bits of the register: the keys
are active-low, so a set bit here is a held key. -/
def notKeyInput (reg : Nat) : Nat := 0xFFFF ^^^ (reg % 0x10000)

/-- The local `keys` of `HandleInput`: `~REG_KEYINPUT & 0x03FF`. -/
def keysOf (reg : Nat) : Nat := notKeyInput reg &&& 0x03FF

/-- The function `ButtonPressed`, with the register value and `prevKeys` as arguments. -/
def ButtonPressed (reg prevKeys key : Nat) : Bool :=
  (notKeyInput reg &&& key != 0) && !(prevKeys &&& key != 0)

/-- The statement `for (i...) raindrops[i].speed = rainSpeed;` of `HandleInput`. -/
def setAllSpeeds (s : Game) : Game :=
  { s with raindrops := s.raindrops.map (fun d => { d with speed := toS8 (s.rainSpeed : Int) }) }

/-- Wind control of `HandleInput` (level-sensitive); the guards keep the `s8` from
wrapping. -/
def windControl (keys : Nat) (s : Game) : Game :=
  let s1 :=
    if keys &&& KEY_LEFT ≠ 0 ∧ s.windForce > -MAX_WIND then
      { s with windForce := s.windForce - 1 }
    else s
  if keys &&& KEY_RIGHT ≠ 0 ∧ s1.windForce < MAX_WIND then
    { s1 with windForce := s1.windForce + 1 }
  else s1

/-- The block `if (ButtonPressed(KEY_UP)) ...` of `HandleInput`. -/
def speedUp (reg : Nat) (s : Game) : Game :=
  if ButtonPressed reg s.prevKeys KEY_UP then
    let s1 :=
      if s.rainSpeed = RAIN_SPEED_SLOW then { s with rainSpeed := RAIN_SPEED_MEDIUM }
      else if s.rainSpeed = RAIN_SPEED_MEDIUM then { s with rainSpeed := RAIN_SPEED_FAST }
      else s
    setAllSpeeds s1
  else s

/-- The block `if (ButtonPressed(KEY_DOWN)) ...` of `HandleInput`. -/
def speedDown (reg : Nat) (s : Game) : Game :=
  if ButtonPressed reg s.prevKeys KEY_DOWN then
    let s1 :=
      if s.rainSpeed = RAIN_SPEED_FAST then { s with rainSpeed := RAIN_SPEED_MEDIUM }
      else if s.rainSpeed = RAIN_SPEED_MEDIUM then { s with rainSpeed := RAIN_SPEED_SLOW }
      else s
    setAllSpeeds s1
  else s

/-- The two thunder triggers of `HandleInput`. -/
def thunderControl (reg : Nat) (s : Game) : Game :=
  let s1 := if ButtonPressed reg s.prevKeys KEY_L then TriggerThunder THUNDER_SOFT s else s
  if ButtonPressed reg s1.prevKeys KEY_R then TriggerThunder THUNDER_HEAVY s1 else s1

/-- Background cycling of `HandleInput`. -/
def bgCycle (reg : Nat) (s : Game) : Game :=
  if ButtonPressed reg s.prevKeys KEY_SELECT then
    { s with bgColorIndex := (s.bgColorIndex + 1) % NUM_BG_COLORS }
  else s

/-- The reset block of `HandleInput`. -/
def resetControl (rand : Nat → Nat) (reg : Nat) (s : Game) : Game :=
  if ButtonPressed reg s.prevKeys KEY_START then
    InitRain rand { s with rainSpeed := DEFAULT_RAIN_SPEED }
  else s

/-- The return-to-menu block of `HandleInput`. -/
def menuReturn (reg : Nat) (s : Game) : Game :=
  if ButtonPressed reg s.prevKeys KEY_B then { s with gameState := GameState.STATE_MENU }
  else s

/-- The function `HandleInput`, with the value `reg` read from `REG_KEYINPUT`. The case
`STATE_RAIN` runs its blocks in source order. -/
def HandleInput (rand : Nat → Nat) (reg : Nat) (s : Game) : Game :=
  let keys := keysOf reg
  let s1 :=
    match s.gameState with
    | GameState.STATE_MENU =>
      if ButtonPressed reg s.prevKeys KEY_A then
        InitRain rand { s with gameState := GameState.STATE_RAIN }
      else s
    | GameState.STATE_RAIN =>
      menuReturn reg (resetControl rand reg (bgCycle reg (thunderControl reg
        (speedDown reg (speedUp reg (windControl keys s))))))
  { s1 with prevKeys := keys }

/-- The state in which `main` enters its loop: `InitRain(); gameState = STATE_MENU;`. -/
def boot (rand : Nat → Nat) : Game :=
  { InitRain rand staticInit with gameState := GameState.STATE_MENU }

/-- One iteration of the main loop, without drawing: `HandleInput(); UpdateGame();`. -/
def tick (rand : Nat → Nat) (reg : Nat) (s : Game) : Game :=
  UpdateGame rand (HandleInput rand reg s)

/-- The state after the main loop ran once for each register value of the list. -/
def runTicks (rand : Nat → Nat) : Game → List Nat → Game
  | s, [] => s
  | s, reg :: regs => runTicks rand (tick rand reg s) regs

/-- The states the program can be in between two calls of its functions: the state at loop
entry, and the state after `HandleInput` or `UpdateGame` from such a state, in any order
of the two calls (the main loop alternates them, which is one such order). -/
inductive Reachable (rand : Nat → Nat) : Game → Prop
  | boot : Reachable rand (boot rand)
  | input (reg : Nat) (s : Game) : Reachable rand s → Reachable rand (HandleInput rand reg s)
  | update (s : Game) : Reachable rand s → Reachable rand (UpdateGame rand s)

/-! ## Invariant -/

/-- The bounds every particle keeps while the program runs, relative to the speed level. -/
def DropOk (rainSpeed : Nat) (d : Raindrop) : Prop :=
  -10 ≤ d.x ∧ d.x < 250 ∧ -99 ≤ d.y ∧ d.y < 160 ∧
    (d.speed = (rainSpeed : Int) ∨ d.speed = (rainSpeed : Int) + 1) ∧
    2 ≤ d.length ∧ d.length ≤ 5

/-- The invariant of the program state: array size, speed level, wind clamp and the
particle bounds. -/
def Inv (s : Game) : Prop :=
  s.raindrops.length = MAX_RAINDROPS ∧
    (s.rainSpeed = 2 ∨ s.rainSpeed = 4 ∨ s.rainSpeed = 6) ∧
    -3 ≤ s.windForce ∧ s.windForce ≤ 3 ∧
    ∀ d ∈ s.raindrops, DropOk s.rainSpeed d

/-! ## Concrete inputs -/

/-- A `rand()` that always returns 0. -/
def zeroRand : Nat → Nat := fun _ => 0

/-- Register value with no button held (active-low: all ten bits set). -/
def regNone : Nat := 0x03FF

/-- Register value with only A held. -/
def regA : Nat := 0x03FE

/-- Register value with only R held. -/
def regR : Nat := 0x02FF

/-- Register value with only Left held. -/
def regLeft : Nat := 0x03DF

/-- Register value with only Select held. -/
def regSelect : Nat := 0x03FB

/-- Register value with only Up held. -/
def regUp : Nat := 0x03BF

/-- Register value with Start and B held. -/
def regStartB : Nat := 0x03F5

/-- Register value with only B held. -/
def regB : Nat := 0x03FD

/-- Register value with only Start held. -/
def regStart : Nat := 0x03F7

/-- The state after the first loop iteration in which A is pressed (Rain state), with
`zeroRand`. -/
def rainStart : Game := tick zeroRand regA (boot zeroRand)

/-- The state after 39 loop iterations from program start with `zeroRand`: A pressed on the
first, nothing held afterwards. -/
def rainAt156 : Game := runTicks zeroRand (boot zeroRand) (regA :: List.replicate 38 regNone)

/-- A Rain state whose particles all sit at `y = 158` with `speed = 4`, `length = 3`. -/
def dropsAt158 : Game :=
  { staticInit with
    gameState := GameState.STATE_RAIN
    raindrops := List.replicate MAX_RAINDROPS { x := 100, y := 158, length := 3, speed := 4, alpha := 0 } }

/-! ## Drawing

The frame buffer `videoBuffer` is a memory `Int → Nat` of `u16` cells indexed from the start
of VRAM. Each drawing function is the list of its stores, in program order; a store
`videoBuffer[row * SCREEN_WIDTH + col] = color` is a `PixelWrite`, and `store` applies a list
of them to the memory. -/

def COLOR_WHITE : Nat := RGB15 31 31 31
def COLOR_MENU_BG : Nat := RGB15 4 4 4
def COLOR_TEXT_SHADOW : Nat := RGB15 2 2 2
def COLOR_RAIN_BRIGHT : Nat := RGB15 28 30 31
def COLOR_RAIN_DIM : Nat := RGB15 20 24 28
def THUNDER_LIGHT : Nat := RGB15 31 31 31

/-- The table `bgColors`. -/
def bgColors : List Nat := [RGB15 1 3 8, RGB15 2 4 10, RGB15 1 3 7, RGB15 2 5 12]

/-- The table `fontData`: 41 glyphs of 8 row bytes each. -/
def fontData : List Nat :=
  [
    0x00, 0x00, 0x00, 0x00, 0x00, 0x00, 0x00, 0x00,  -- space
    0x1C, 0x3E, 0x63, 0x63, 0x7F, 0x63, 0x63, 0x00,  -- A
    0x3E, 0x63, 0x63, 0x3E, 0x63, 0x63, 0x3E, 0x00,  -- B
    0x3E, 0x63, 0x60, 0x60, 0x60, 0x63, 0x3E, 0x00,  -- C
    0x7E, 0x63, 0x61, 0x61, 0x61, 0x63, 0x7E, 0x00,  -- D
    0x7F, 0x60, 0x60, 0x7E, 0x60, 0x60, 0x7F, 0x00,  -- E
    0x7F, 0x60, 0x60, 0x7E, 0x60, 0x60, 0x60, 0x00,  -- F
    0x3E, 0x63, 0x60, 0x67, 0x63, 0x63, 0x3E, 0x00,  -- G
    0x63, 0x63, 0x63, 0x7F, 0x63, 0x63, 0x63, 0x00,  -- H
    0x3E, 0x0C, 0x0C, 0x0C, 0x0C, 0x0C, 0x3E, 0x00,  -- I
    0x1F, 0x06, 0x06, 0x06, 0x66, 0x66, 0x3C, 0x00,  -- J
    0x63, 0x66, 0x6C, 0x78, 0x6C, 0x66, 0x63, 0x00,  -- K
    0x60, 0x60, 0x60, 0x60, 0x60, 0x60, 0x7F, 0x00,  -- L
    0x63, 0x77, 0x7F, 0x6B, 0x63, 0x63, 0x63, 0x00,  -- M
    0x63, 0x73, 0x7B, 0x6F, 0x67, 0x63, 0x63, 0x00,  -- N
    0x3E, 0x63, 0x63, 0x63, 0x63, 0x63, 0x3E, 0x00,  -- O
    0x3E, 0x63, 0x63, 0x3E, 0x60, 0x60, 0x60, 0x00,  -- P
    0x3E, 0x63, 0x63, 0x63, 0x6B, 0x66, 0x3D, 0x00,  -- Q
    0x3E, 0x63, 0x63, 0x3E, 0x6C, 0x66, 0x63, 0x00,  -- R
    0x3E, 0x63, 0x60, 0x3E, 0x03, 0x63, 0x3E, 0x00,  -- S
    0x3E, 0x0C, 0x0C, 0x0C, 0x0C, 0x0C, 0x0C, 0x00,  -- T
    0x63, 0x63, 0x63, 0x63, 0x63, 0x63, 0x3E, 0x00,  -- U
    0x63, 0x63, 0x63, 0x36, 0x36, 0x1C, 0x08, 0x00,  -- V
    0x63, 0x63, 0x63, 0x6B, 0x7F, 0x36, 0x22, 0x00,  -- W
    0x63, 0x36, 0x1C, 0x08, 0x1C, 0x36, 0x63, 0x00,  -- X
    0x33, 0x33, 0x33, 0x1E, 0x0C, 0x0C, 0x0C, 0x00,  -- Y
    0x7F, 0x06, 0x0C, 0x18, 0x30, 0x60, 0x7F, 0x00,  -- Z
    0x3E, 0x63, 0x67, 0x6B, 0x73, 0x63, 0x3E, 0x00,  -- 0
    0x0C, 0x1C, 0x3C, 0x0C, 0x0C, 0x0C, 0x3F, 0x00,  -- 1
    0x3E, 0x63, 0x03, 0x0E, 0x38, 0x60, 0x7F, 0x00,  -- 2
    0x3E, 0x63, 0x03, 0x1C, 0x03, 0x63, 0x3E, 0x00,  -- 3
    0x06, 0x0E, 0x1E, 0x36, 0x66, 0x7F, 0x06, 0x00,  -- 4
    0x7F, 0x60, 0x7E, 0x03, 0x03, 0x63, 0x3E, 0x00,  -- 5
    0x1C, 0x30, 0x60, 0x7E, 0x63, 0x63, 0x3E, 0x00,  -- 6
    0x7F, 0x03, 0x06, 0x0C, 0x18, 0x18, 0x18, 0x00,  -- 7
    0x3E, 0x63, 0x63, 0x3E, 0x63, 0x63, 0x3E, 0x00,  -- 8
    0x3E, 0x63, 0x63, 0x3F, 0x03, 0x06, 0x3C, 0x00,  -- 9
    0x0E, 0x1C, 0x38, 0x70, 0x38, 0x1C, 0x0E, 0x00,  -- <
    0x00, 0x00, 0x00, 0x7E, 0x00, 0x00, 0x00, 0x00,  -- -
    0x70, 0x38, 0x1C, 0x0E, 0x1C, 0x38, 0x70, 0x00,  -- >
    0x00, 0x00, 0x00, 0x00, 0x00, 0x18, 0x18, 0x00   -- .
  ]

/-- One store `videoBuffer[row * SCREEN_WIDTH + col] = color`. -/
structure PixelWrite where
  row : Int
  col : Int
  color : Nat
deriving DecidableEq, Repr

/-- The cell index of a store. -/
def PixelWrite.index (w : PixelWrite) : Int := w.row * SCREEN_WIDTH + w.col

/-- The memory after one store. -/
def writeCell (fb : Int → Nat) (w : PixelWrite) : Int → Nat :=
  fun i => if i = w.index then w.color else fb i

/-- The memory after a list of stores, applied in order. -/
def store (fb : Int → Nat) (ws : List PixelWrite) : Int → Nat :=
  ws.foldl writeCell fb

/-- The function `DrawPixel`. -/
def DrawPixel (x y : Int) (color : Nat) : List PixelWrite :=
  if x ≥ 0 ∧ x < SCREEN_WIDTH ∧ y ≥ 0 ∧ y < SCREEN_HEIGHT then
    [{ row := y, col := x, color := color }]
  else []

/-- The function `ClearScreen`: word `i` of the `u32` view covers the cells `2 * i` and
`2 * i + 1`, and both halves of `color | (color << 16)` are `color`. -/
def ClearScreen (color : Nat) : List PixelWrite :=
  (List.range (SCREEN_WIDTH * SCREEN_HEIGHT / 2).toNat).flatMap (fun i =>
    [{ row := (2 * (i : Int)) / SCREEN_WIDTH, col := (2 * (i : Int)) % SCREEN_WIDTH,
       color := color },
     { row := (2 * (i : Int) + 1) / SCREEN_WIDTH, col := (2 * (i : Int) + 1) % SCREEN_WIDTH,
       color := color }])

/-- The glyph selection at the head of `DrawChar`, on the byte `c` of a `char`: upper-case
folding `if (c >= 97) c &= ~0x20`, then the table index, or `none` where `DrawChar`
returns without drawing. (With a signed `char` the bytes from 128 on are negative and fail
every comparison, which gives `none` as here.) -/
def glyphIndex (c : Nat) : Option Nat :=
  let c1 := if c ≥ 97 then c &&& 0xDF else c
  if c1 = 32 then some 0
  else if c1 ≥ 65 ∧ c1 ≤ 90 then some (c1 - 65 + 1)
  else if c1 ≥ 48 ∧ c1 ≤ 57 then some ((c1 - 48) + 27)
  else if c1 = 60 then some 37
  else if c1 = 45 then some 38
  else if c1 = 62 then some 39
  else if c1 = 46 then some 40
  else none

/-- The row byte `charSprite[row]` with `charSprite = &fontData[index << 3]`. -/
def glyphLine (index row : Nat) : Nat := fontData.getD ((index <<< 3) + row) 0

/-- Body of the innermost `if` of `DrawChar` for a set bit at `(baseX, baseY)`: the shadow
store first, then the main pixel. -/
def glyphPixel (baseX baseY : Int) (color alpha : Nat) : List PixelWrite :=
  if baseX ≥ 0 ∧ baseX < SCREEN_WIDTH then
    (if baseX + 1 < SCREEN_WIDTH ∧ baseY + 1 < SCREEN_HEIGHT then
        [{ row := baseY + 1, col := baseX + 1, color := COLOR_TEXT_SHADOW }]
      else []) ++
    [{ row := baseY, col := baseX,
       color := if alpha < 31 then BlendColors color COLOR_MENU_BG alpha else color }]
  else []

/-- Body of the row loop of `DrawChar`. -/
def glyphRow (x y : Int) (index row : Nat) (color alpha : Nat) : List PixelWrite :=
  let line := glyphLine index row
  if line = 0 then []
  else
    let baseY := y + (row : Int)
    if baseY ≥ 0 ∧ baseY < SCREEN_HEIGHT then
      (List.range 8).flatMap (fun bit =>
        if line &&& (0x80 >>> bit) ≠ 0 then glyphPixel (x + (bit : Int)) baseY color alpha
        else [])
    else []

/-- The function `DrawChar`. -/
def DrawChar (x y : Int) (c : Nat) (color alpha : Nat) : List PixelWrite :=
  match glyphIndex c with
  | none => []
  | some index => (List.range 8).flatMap (fun row => glyphRow x y index row color alpha)

/-- The function `DrawText` on the bytes at `text`: the loop stops at the first zero byte. -/
def DrawText (x y : Int) : List Nat → Nat → Nat → List PixelWrite
  | [], _, _ => []
  | c :: cs, color, alpha =>
    if c = 0 then []
    else DrawChar x y c color alpha ++ DrawText (x + 8) y cs color alpha

/-- The fade weight of `DrawRain`: `u8 fade = ((length - j) * 31) / length` in `int`. -/
def rainFade (length j : Int) : Nat := toU8 (Int.tdiv ((length - j) * 31) length)

/-- Body of the particle loop of `DrawRain`. -/
def drawDrop (bgColor : Nat) (d : Raindrop) : List PixelWrite :=
  let x := d.x
  let y := d.y
  let length : Int := d.length
  if y < 0 ∨ y ≥ SCREEN_HEIGHT then []
  else
    (List.range d.length).flatMap (fun j =>
      let py := y + (j : Int)
      if py ≥ 0 ∧ py < SCREEN_HEIGHT ∧ x ≥ 0 ∧ x < SCREEN_WIDTH then
        [{ row := py, col := x,
           color := if j = 0 then COLOR_RAIN_BRIGHT
             else BlendColors COLOR_RAIN_DIM bgColor (rainFade length j) }]
      else [])

/-- The function `DrawRain`. The read `bgColors[bgColorIndex]` is inside the table in every
reachable state; outside it the model reads 0. -/
def DrawRain (s : Game) : List PixelWrite :=
  let bgColor0 := bgColors.getD s.bgColorIndex 0
  let bgColor :=
    if s.thunderTimer > 0 then BlendColors bgColor0 THUNDER_LIGHT (s.thunderIntensity >>> 1)
    else bgColor0
  ClearScreen bgColor ++ s.raindrops.flatMap (drawDrop bgColor)

/-- The bytes of a string literal, without the terminating zero. -/
def cstr (s : String) : List Nat := s.toList.map Char.toNat

/-- The arguments of one call of `DrawText`. -/
structure TextCall where
  x : Int
  y : Int
  text : List Nat
  color : Nat
  alpha : Nat
deriving DecidableEq, Repr

/-- The six calls of `DrawText` in `DrawMenu`, in order. -/
def menuLines (menuAlpha : Nat) : List TextCall :=
  let centerY : Int := (SCREEN_HEIGHT / 2) - 50
  [ { x := (SCREEN_WIDTH - 9 * 8) / 2, y := centerY, text := cstr "CLAUDE 3.7",
      color := COLOR_WHITE, alpha := 31 },
    { x := (SCREEN_WIDTH - 10 * 8) / 2, y := centerY + 20, text := cstr "RAIN STORM",
      color := COLOR_WHITE, alpha := 31 },
    { x := (SCREEN_WIDTH - 11 * 8) / 2, y := centerY + 40, text := cstr "JAN MICHAEL",
      color := COLOR_WHITE, alpha := 31 },
    { x := (SCREEN_WIDTH - 9 * 8) / 2, y := centerY + 55, text := cstr "CURSOR AI",
      color := COLOR_WHITE, alpha := 31 },
    { x := (SCREEN_WIDTH - 7 * 8) / 2, y := centerY + 75, text := cstr "PRESS A",
      color := COLOR_WHITE, alpha := menuAlpha },
    { x := (SCREEN_WIDTH - 9 * 8) / 2, y := centerY + 90, text := cstr "HOLD DPAD",
      color := COLOR_WHITE, alpha := 31 } ]

/-- The function `DrawMenu`, with the global `menuAlpha` as argument. -/
def DrawMenu (menuAlpha : Nat) : List PixelWrite :=
  ClearScreen COLOR_MENU_BG ++
    (menuLines menuAlpha).flatMap (fun t => DrawText t.x t.y t.text t.color t.alpha)

/-- The function `DrawGame`. -/
def DrawGame (s : Game) : List PixelWrite :=
  match s.gameState with
  | GameState.STATE_MENU => DrawMenu s.menuAlpha
  | GameState.STATE_RAIN => DrawRain s

/-- The right-hand side of the `menuAlpha` assignment of `UpdateGame`, as a function of the
frame counter `n` it reads, stored in a `u8`. -/
def menuPulse (n : Nat) : Nat := (20 + ((n % 60) * 11) / 60) % 256

/-- A visible particle of length 5 at `(10, 10)`. -/
def dropLen5 : Raindrop := { x := 10, y := 10, length := 5, speed := 4, alpha := 0 }

/-- A store inside the 240 x 160 frame. -/
def InFrame (w : PixelWrite) : Prop :=
  0 ≤ w.col ∧ w.col < SCREEN_WIDTH ∧ 0 ≤ w.row ∧ w.row < SCREEN_HEIGHT

/-- The colour `DrawChar` stores in a main glyph pixel. -/
def mainColor (color alpha : Nat) : Nat :=
  if alpha < 31 then BlendColors color COLOR_MENU_BG alpha else color

/-- A store made by `DrawChar` for a set glyph bit at `(px, py)` inside the frame: the main
pixel there, or its shadow one right and one down, itself inside the frame. -/
def IsGlyphStore (px py : Int) (color alpha : Nat) (w : PixelWrite) : Prop :=
  (0 ≤ px ∧ px < SCREEN_WIDTH ∧ 0 ≤ py ∧ py < SCREEN_HEIGHT) ∧
    (w = { row := py, col := px, color := mainColor color alpha } ∨
      (w = { row := py + 1, col := px + 1, color := COLOR_TEXT_SHADOW } ∧
        px + 1 < SCREEN_WIDTH ∧ py + 1 < SCREEN_HEIGHT))

/-! # Theorems -/

/-! ## Colour blending -/

theorem and_31 (a : Nat) : a &&& 0x1F = a % 32 := by
  have h := Nat.and_pow_two_sub_one_eq_mod a 5
  simpa using h

theorem RGB15_eq_add (r g b : Nat) (hr : r < 32) (hg : g < 32) :
    RGB15 r g b = r + 32 * g + 1024 * b := by
  unfold RGB15
  rw [Nat.shiftLeft_eq, Nat.shiftLeft_eq]
  have h1 : r ||| g * 2 ^ 5 = 2 ^ 5 * g + r := by
    rw [Nat.lor_comm, Nat.mul_comm]
    exact (Nat.mul_add_lt_is_or (by simpa using hr) g).symm
  have h2 : (2 ^ 5 * g + r) ||| b * 2 ^ 10 = 2 ^ 10 * b + (2 ^ 5 * g + r) := by
    rw [Nat.lor_comm, Nat.mul_comm]
    exact (Nat.mul_add_lt_is_or (by norm_num; omega) b).symm
  rw [h1, h2]
  norm_num
  omega

theorem channels_eq (c : Nat) :
    (c >>> 0) &&& 0x1F = c % 32 ∧ (c >>> 5) &&& 0x1F = c / 32 % 32 ∧
      (c >>> 10) &&& 0x1F = c / 1024 % 32 := by
  refine ⟨?_, ?_, ?_⟩
  · rw [and_31]; simp
  · rw [and_31, Nat.shiftRight_eq_div_pow]
  · rw [and_31, Nat.shiftRight_eq_div_pow]

theorem blendChannel_eq (c1 c2 w : Nat) (hw : w ≤ 31) :
    blendChannel c1 c2 w = ((c1 * (31 - w) + c2 * w) / 31) % 256 := by
  unfold blendChannel toU8
  have h0 : (0 : Int) ≤ (c1 : Int) * (31 - (w : Int)) + (c2 : Int) * (w : Int) := by
    have : (0 : Int) ≤ 31 - (w : Int) := by omega
    positivity
  rw [Int.tdiv_eq_ediv h0 (by norm_num)]
  have hc : ((c1 : Int) * (31 - (w : Int)) + (c2 : Int) * (w : Int)) = ((c1 * (31 - w) + c2 * w : Nat) : Int) := by
    push_cast [Nat.cast_sub hw]
    ring
  rw [hc]
  norm_cast

theorem blendChannel_self (c w : Nat) (hc : c < 32) (hw : w ≤ 31) : blendChannel c c w = c := by
  rw [blendChannel_eq c c w hw]
  have h : c * (31 - w) + c * w = c * 31 := by
    rw [← Nat.mul_add, Nat.sub_add_cancel hw]
  rw [h, Nat.mul_div_cancel c (by norm_num)]
  omega

theorem blendChannel_zero (c1 c2 : Nat) (hc : c1 < 32) : blendChannel c1 c2 0 = c1 := by
  rw [blendChannel_eq c1 c2 0 (by norm_num)]
  simp
  omega

theorem blendChannel_full (c1 c2 : Nat) (hc : c2 < 32) : blendChannel c1 c2 31 = c2 := by
  rw [blendChannel_eq c1 c2 31 (by norm_num)]
  simp
  omega

theorem pack_channels (c : Nat) (hc : c < 32768) :
    RGB15 (c % 32) (c / 32 % 32) (c / 1024 % 32) % 65536 = c := by
  rw [RGB15_eq_add _ _ _ (Nat.mod_lt _ (by norm_num)) (Nat.mod_lt _ (by norm_num))]
  omega

/-- C4: blending a 15-bit colour with itself returns it, for every weight in [0, 31]. -/
theorem BlendColors_self (A w : Nat) (hA : A < 32768) (hw : w ≤ 31) :
    BlendColors A A w = A := by
  obtain ⟨hr, hg, hb⟩ := channels_eq A
  simp only [BlendColors, hr, hg, hb]
  rw [blendChannel_self _ w (Nat.mod_lt _ (by norm_num)) hw,
    blendChannel_self _ w (Nat.mod_lt _ (by norm_num)) hw,
    blendChannel_self _ w (Nat.mod_lt _ (by norm_num)) hw]
  exact pack_channels A hA

theorem BlendColors_self_witness :
    (0x7C1F : Nat) < 32768 ∧ (17 : Nat) ≤ 31 ∧ BlendColors 0x7C1F 0x7C1F 17 = 0x7C1F :=
  ⟨by decide, by decide, BlendColors_self 0x7C1F 17 (by decide) (by decide)⟩

/-- C5: for 15-bit colours, weight 0 returns the first colour and weight 31 the second,
exactly. -/
theorem BlendColors_boundary (A B : Nat) (hA : A < 32768) (hB : B < 32768) :
    BlendColors A B 0 = A ∧ BlendColors A B 31 = B := by
  obtain ⟨hr, hg, hb⟩ := channels_eq A
  obtain ⟨hr2, hg2, hb2⟩ := channels_eq B
  constructor
  · simp only [BlendColors, hr, hg, hb]
    rw [blendChannel_zero _ _ (Nat.mod_lt _ (by norm_num)),
      blendChannel_zero _ _ (Nat.mod_lt _ (by norm_num)),
      blendChannel_zero _ _ (Nat.mod_lt _ (by norm_num))]
    exact pack_channels A hA
  · simp only [BlendColors, hr2, hg2, hb2]
    rw [blendChannel_full _ _ (Nat.mod_lt _ (by norm_num)),
      blendChannel_full _ _ (Nat.mod_lt _ (by norm_num)),
      blendChannel_full _ _ (Nat.mod_lt _ (by norm_num))]
    exact pack_channels B hB

theorem BlendColors_boundary_witness :
    (0x7FFF : Nat) < 32768 ∧ (0x1084 : Nat) < 32768 ∧
      BlendColors 0x7FFF 0x1084 0 = 0x7FFF ∧ BlendColors 0x7FFF 0x1084 31 = 0x1084 :=
  ⟨by decide, by decide, BlendColors_boundary 0x7FFF 0x1084 (by decide) (by decide)⟩

/-! ## The invariant holds in every reachable state -/

theorem initDrop_ok (rand : Nat → Nat) (d : Raindrop) (k : Nat) :
    DropOk 4 (initDrop rand 4 d k) ∧ 0 ≤ (initDrop rand 4 d k).x ∧
      (initDrop rand 4 d k).x < 240 ∧ (initDrop rand 4 d k).y ≤ 0 := by
  simp only [DropOk, initDrop, toS16, toS8, toU8, SCREEN_WIDTH, MIN_LENGTH, MAX_LENGTH]
  refine ⟨⟨?_, ?_, ?_, ?_, ?_, ?_, ?_⟩, ?_, ?_, ?_⟩ <;> omega

theorem initLoop_length (rand : Nat → Nat) (rs : Nat) (ds : List Raindrop) (k : Nat) :
    (initLoop rand rs ds k).length = ds.length := by
  induction ds generalizing k with
  | nil => rfl
  | cons d ds ih => simp [initLoop, ih]

theorem initLoop_mem (rand : Nat → Nat) (rs : Nat) (ds : List Raindrop) (k : Nat)
    (d' : Raindrop) (h : d' ∈ initLoop rand rs ds k) :
    ∃ d j, d' = initDrop rand rs d j := by
  induction ds generalizing k with
  | nil => simp [initLoop] at h
  | cons d ds ih =>
    simp only [initLoop, List.mem_cons] at h
    rcases h with h | h
    · exact ⟨d, k, h⟩
    · exact ih (k + 4) h

theorem updateDrop_ok (rand : Nat → Nat) (w : Int) (rs : Nat) (d : Raindrop) (k : Nat)
    (hrs : rs = 2 ∨ rs = 4 ∨ rs = 6) (hd : DropOk rs d) :
    DropOk rs (updateDrop rand w rs d k).1 := by
  obtain ⟨h1, h2, h3, h4, h5, h6, h7⟩ := hd
  simp only [DropOk, updateDrop, toS16, toS8, toU8, SCREEN_WIDTH, SCREEN_HEIGHT, MIN_LENGTH,
    MAX_LENGTH]
  split_ifs <;> dsimp only at * <;> refine ⟨?_, ?_, ?_, ?_, ?_, ?_, ?_⟩ <;> omega

theorem updateLoop_length (rand : Nat → Nat) (w : Int) (rs : Nat) (ds : List Raindrop)
    (k : Nat) : (updateLoop rand w rs ds k).1.length = ds.length := by
  induction ds generalizing k with
  | nil => rfl
  | cons d ds ih => simp [updateLoop, ih]

theorem updateLoop_mem (rand : Nat → Nat) (w : Int) (rs : Nat) (ds : List Raindrop)
    (k : Nat) (d' : Raindrop) (h : d' ∈ (updateLoop rand w rs ds k).1) :
    ∃ d ∈ ds, ∃ j, d' = (updateDrop rand w rs d j).1 := by
  induction ds generalizing k with
  | nil => simp [updateLoop] at h
  | cons d ds ih =>
    simp only [updateLoop, List.mem_cons] at h
    rcases h with h | h
    · exact ⟨d, List.mem_cons_self _ _, k, h⟩
    · obtain ⟨e, he, j, hj⟩ := ih _ h
      exact ⟨e, List.mem_cons_of_mem _ he, j, hj⟩

theorem updateLoop_getElem? (rand : Nat → Nat) (w : Int) (rs : Nat) (ds : List Raindrop)
    (k i : Nat) (d : Raindrop) (h : ds[i]? = some d) :
    ∃ j, (updateLoop rand w rs ds k).1[i]? = some (updateDrop rand w rs d j).1 := by
  induction ds generalizing k i with
  | nil => simp at h
  | cons e ds ih =>
    cases i with
    | zero =>
      simp only [List.getElem?_cons_zero, Option.some.injEq] at h
      subst h
      exact ⟨k, by simp [updateLoop]⟩
    | succ i =>
      simp only [List.getElem?_cons_succ] at h
      obtain ⟨j, hj⟩ := ih (updateDrop rand w rs e k).2 i h
      exact ⟨j, by simpa [updateLoop] using hj⟩

theorem Inv_InitRain (rand : Nat → Nat) (s : Game) (h : s.raindrops.length = MAX_RAINDROPS) :
    Inv (InitRain rand s) := by
  refine ⟨?_, ?_, ?_, ?_, ?_⟩
  · simpa [InitRain, initLoop_length] using h
  · simp [InitRain, RAIN_SPEED_MEDIUM]
  · simp [InitRain]
  · simp [InitRain]
  · intro d hd
    obtain ⟨e, j, rfl⟩ := initLoop_mem rand _ _ _ d hd
    exact (initDrop_ok rand e j).1

theorem Inv_UpdateRain (rand : Nat → Nat) (s : Game) (h : Inv s) : Inv (UpdateRain rand s) := by
  obtain ⟨h1, h2, h3, h4, h5⟩ := h
  have key : Inv { s with
      raindrops := (updateLoop rand s.windForce s.rainSpeed s.raindrops s.randCalls).1
      randCalls := (updateLoop rand s.windForce s.rainSpeed s.raindrops s.randCalls).2 } := by
    refine ⟨?_, h2, h3, h4, ?_⟩
    · simpa [updateLoop_length] using h1
    · intro d hd
      obtain ⟨e, he, j, rfl⟩ := updateLoop_mem rand _ _ _ _ d hd
      exact updateDrop_ok rand _ _ e j h2 (h5 e he)
  unfold UpdateRain
  dsimp only
  split_ifs
  · exact key
  · exact key

theorem Inv_UpdateGame (rand : Nat → Nat) (s : Game) (h : Inv s) : Inv (UpdateGame rand s) := by
  unfold UpdateGame
  dsimp only
  split
  · exact h
  · have h2 : Inv (UpdateRain rand { s with frameCounter := (s.frameCounter + 1) % 4294967296 }) :=
      Inv_UpdateRain rand _ h
    split_ifs
    · exact h2
    · exact h2

theorem toS8_level (rs : Nat) (h : rs = 2 ∨ rs = 4 ∨ rs = 6) : toS8 (rs : Int) = (rs : Int) := by
  unfold toS8
  omega

theorem Inv_setAllSpeeds (s : Game) (h : Inv s) : Inv (setAllSpeeds s) := by
  obtain ⟨h1, h2, h3, h4, h5⟩ := h
  refine ⟨by simpa [setAllSpeeds] using h1, h2, h3, h4, ?_⟩
  intro d hd
  simp only [setAllSpeeds, List.mem_map] at hd
  obtain ⟨e, he, rfl⟩ := hd
  obtain ⟨a1, a2, a3, a4, -, a6, a7⟩ := h5 e he
  exact ⟨a1, a2, a3, a4, Or.inl (toS8_level _ h2), a6, a7⟩

/-- Changing the speed level alone breaks only the speed part of the particle bounds, which
`setAllSpeeds` restores. -/
theorem Inv_setLevel (s : Game) (h : Inv s) (L : Nat) (hL : L = 2 ∨ L = 4 ∨ L = 6) :
    Inv (setAllSpeeds { s with rainSpeed := L }) := by
  obtain ⟨h1, -, h3, h4, h5⟩ := h
  refine ⟨by simpa [setAllSpeeds] using h1, hL, h3, h4, ?_⟩
  intro d hd
  simp only [setAllSpeeds, List.mem_map] at hd
  obtain ⟨e, he, rfl⟩ := hd
  obtain ⟨a1, a2, a3, a4, -, a6, a7⟩ := h5 e he
  exact ⟨a1, a2, a3, a4, Or.inl (toS8_level _ hL), a6, a7⟩

theorem Inv_windControl (keys : Nat) (s : Game) (h : Inv s) : Inv (windControl keys s) := by
  obtain ⟨h1, h2, h3, h4, h5⟩ := h
  unfold windControl
  simp only [MAX_WIND]
  split_ifs <;> refine ⟨h1, h2, ?_, ?_, h5⟩ <;> dsimp only at * <;> omega

theorem Inv_speedUp (reg : Nat) (s : Game) (h : Inv s) : Inv (speedUp reg s) := by
  unfold speedUp
  dsimp only
  split_ifs
  · exact Inv_setLevel s h _ (by simp [RAIN_SPEED_MEDIUM])
  · exact Inv_setLevel s h _ (by simp [RAIN_SPEED_FAST])
  · exact Inv_setAllSpeeds s h
  · exact h

theorem Inv_speedDown (reg : Nat) (s : Game) (h : Inv s) : Inv (speedDown reg s) := by
  unfold speedDown
  dsimp only
  split_ifs
  · exact Inv_setLevel s h _ (by simp [RAIN_SPEED_MEDIUM])
  · exact Inv_setLevel s h _ (by simp [RAIN_SPEED_SLOW])
  · exact Inv_setAllSpeeds s h
  · exact h

theorem Inv_thunderControl (reg : Nat) (s : Game) (h : Inv s) : Inv (thunderControl reg s) := by
  unfold thunderControl TriggerThunder
  dsimp only
  split_ifs <;> exact h

theorem Inv_bgCycle (reg : Nat) (s : Game) (h : Inv s) : Inv (bgCycle reg s) := by
  unfold bgCycle
  split_ifs <;> exact h

theorem Inv_resetControl (rand : Nat → Nat) (reg : Nat) (s : Game) (h : Inv s) :
    Inv (resetControl rand reg s) := by
  unfold resetControl
  split_ifs
  · exact Inv_InitRain rand _ h.1
  · exact h

theorem Inv_menuReturn (reg : Nat) (s : Game) (h : Inv s) : Inv (menuReturn reg s) := by
  unfold menuReturn
  split_ifs <;> exact h

theorem Inv_HandleInput (rand : Nat → Nat) (reg : Nat) (s : Game) (h : Inv s) :
    Inv (HandleInput rand reg s) := by
  have key : Inv (match s.gameState with
      | GameState.STATE_MENU =>
        if ButtonPressed reg s.prevKeys KEY_A then
          InitRain rand { s with gameState := GameState.STATE_RAIN }
        else s
      | GameState.STATE_RAIN =>
        menuReturn reg (resetControl rand reg (bgCycle reg (thunderControl reg
          (speedDown reg (speedUp reg (windControl (keysOf reg) s))))))) := by
    split
    · split_ifs
      · exact Inv_InitRain rand _ h.1
      · exact h
    · exact Inv_menuReturn _ _ (Inv_resetControl _ _ _ (Inv_bgCycle _ _ (Inv_thunderControl _ _
        (Inv_speedDown _ _ (Inv_speedUp _ _ (Inv_windControl _ _ h))))))
  exact key

theorem Inv_boot (rand : Nat → Nat) : Inv (boot rand) :=
  Inv_InitRain rand staticInit (by simp [staticInit])

theorem Inv_of_Reachable (rand : Nat → Nat) (s : Game) (h : Reachable rand s) : Inv s := by
  induction h with
  | boot => exact Inv_boot rand
  | input reg s _ ih => exact Inv_HandleInput rand reg s ih
  | update s _ ih => exact Inv_UpdateGame rand s ih

/-! ## Fields that the blocks of HandleInput leave alone -/

@[simp]
theorem windControl_prevKeys (keys : Nat) (s : Game) :
    (windControl keys s).prevKeys = s.prevKeys := by
  unfold windControl
  try dsimp only
  split_ifs <;> rfl

@[simp]
theorem windControl_gameState (keys : Nat) (s : Game) :
    (windControl keys s).gameState = s.gameState := by
  unfold windControl
  try dsimp only
  split_ifs <;> rfl

@[simp]
theorem windControl_thunderTimer (keys : Nat) (s : Game) :
    (windControl keys s).thunderTimer = s.thunderTimer := by
  unfold windControl
  try dsimp only
  split_ifs <;> rfl

@[simp]
theorem windControl_rainSpeed (keys : Nat) (s : Game) :
    (windControl keys s).rainSpeed = s.rainSpeed := by
  unfold windControl
  try dsimp only
  split_ifs <;> rfl

@[simp]
theorem windControl_bgColorIndex (keys : Nat) (s : Game) :
    (windControl keys s).bgColorIndex = s.bgColorIndex := by
  unfold windControl
  try dsimp only
  split_ifs <;> rfl

@[simp]
theorem windControl_raindrops (keys : Nat) (s : Game) :
    (windControl keys s).raindrops = s.raindrops := by
  unfold windControl
  try dsimp only
  split_ifs <;> rfl

@[simp]
theorem windControl_randCalls (keys : Nat) (s : Game) :
    (windControl keys s).randCalls = s.randCalls := by
  unfold windControl
  try dsimp only
  split_ifs <;> rfl

@[simp]
theorem speedUp_prevKeys (reg : Nat) (s : Game) :
    (speedUp reg s).prevKeys = s.prevKeys := by
  unfold speedUp setAllSpeeds
  try dsimp only
  split_ifs <;> rfl

@[simp]
theorem speedUp_gameState (reg : Nat) (s : Game) :
    (speedUp reg s).gameState = s.gameState := by
  unfold speedUp setAllSpeeds
  try dsimp only
  split_ifs <;> rfl

@[simp]
theorem speedUp_windForce (reg : Nat) (s : Game) :
    (speedUp reg s).windForce = s.windForce := by
  unfold speedUp setAllSpeeds
  try dsimp only
  split_ifs <;> rfl

@[simp]
theorem speedUp_thunderTimer (reg : Nat) (s : Game) :
    (speedUp reg s).thunderTimer = s.thunderTimer := by
  unfold speedUp setAllSpeeds
  try dsimp only
  split_ifs <;> rfl

@[simp]
theorem speedUp_bgColorIndex (reg : Nat) (s : Game) :
    (speedUp reg s).bgColorIndex = s.bgColorIndex := by
  unfold speedUp setAllSpeeds
  try dsimp only
  split_ifs <;> rfl

@[simp]
theorem speedUp_randCalls (reg : Nat) (s : Game) :
    (speedUp reg s).randCalls = s.randCalls := by
  unfold speedUp setAllSpeeds
  try dsimp only
  split_ifs <;> rfl

@[simp]
theorem speedDown_prevKeys (reg : Nat) (s : Game) :
    (speedDown reg s).prevKeys = s.prevKeys := by
  unfold speedDown setAllSpeeds
  try dsimp only
  split_ifs <;> rfl

@[simp]
theorem speedDown_gameState (reg : Nat) (s : Game) :
    (speedDown reg s).gameState = s.gameState := by
  unfold speedDown setAllSpeeds
  try dsimp only
  split_ifs <;> rfl

@[simp]
theorem speedDown_windForce (reg : Nat) (s : Game) :
    (speedDown reg s).windForce = s.windForce := by
  unfold speedDown setAllSpeeds
  try dsimp only
  split_ifs <;> rfl

@[simp]
theorem speedDown_thunderTimer (reg : Nat) (s : Game) :
    (speedDown reg s).thunderTimer = s.thunderTimer := by
  unfold speedDown setAllSpeeds
  try dsimp only
  split_ifs <;> rfl

@[simp]
theorem speedDown_bgColorIndex (reg : Nat) (s : Game) :
    (speedDown reg s).bgColorIndex = s.bgColorIndex := by
  unfold speedDown setAllSpeeds
  try dsimp only
  split_ifs <;> rfl

@[simp]
theorem speedDown_randCalls (reg : Nat) (s : Game) :
    (speedDown reg s).randCalls = s.randCalls := by
  unfold speedDown setAllSpeeds
  try dsimp only
  split_ifs <;> rfl

@[simp]
theorem thunderControl_prevKeys (reg : Nat) (s : Game) :
    (thunderControl reg s).prevKeys = s.prevKeys := by
  unfold thunderControl TriggerThunder
  try dsimp only
  split_ifs <;> rfl

@[simp]
theorem thunderControl_gameState (reg : Nat) (s : Game) :
    (thunderControl reg s).gameState = s.gameState := by
  unfold thunderControl TriggerThunder
  try dsimp only
  split_ifs <;> rfl

@[simp]
theorem thunderControl_windForce (reg : Nat) (s : Game) :
    (thunderControl reg s).windForce = s.windForce := by
  unfold thunderControl TriggerThunder
  try dsimp only
  split_ifs <;> rfl

@[simp]
theorem thunderControl_rainSpeed (reg : Nat) (s : Game) :
    (thunderControl reg s).rainSpeed = s.rainSpeed := by
  unfold thunderControl TriggerThunder
  try dsimp only
  split_ifs <;> rfl

@[simp]
theorem thunderControl_bgColorIndex (reg : Nat) (s : Game) :
    (thunderControl reg s).bgColorIndex = s.bgColorIndex := by
  unfold thunderControl TriggerThunder
  try dsimp only
  split_ifs <;> rfl

@[simp]
theorem thunderControl_raindrops (reg : Nat) (s : Game) :
    (thunderControl reg s).raindrops = s.raindrops := by
  unfold thunderControl TriggerThunder
  try dsimp only
  split_ifs <;> rfl

@[simp]
theorem thunderControl_randCalls (reg : Nat) (s : Game) :
    (thunderControl reg s).randCalls = s.randCalls := by
  unfold thunderControl TriggerThunder
  try dsimp only
  split_ifs <;> rfl

@[simp]
theorem bgCycle_prevKeys (reg : Nat) (s : Game) :
    (bgCycle reg s).prevKeys = s.prevKeys := by
  unfold bgCycle
  try dsimp only
  split_ifs <;> rfl

@[simp]
theorem bgCycle_gameState (reg : Nat) (s : Game) :
    (bgCycle reg s).gameState = s.gameState := by
  unfold bgCycle
  try dsimp only
  split_ifs <;> rfl

@[simp]
theorem bgCycle_windForce (reg : Nat) (s : Game) :
    (bgCycle reg s).windForce = s.windForce := by
  unfold bgCycle
  try dsimp only
  split_ifs <;> rfl

@[simp]
theorem bgCycle_thunderTimer (reg : Nat) (s : Game) :
    (bgCycle reg s).thunderTimer = s.thunderTimer := by
  unfold bgCycle
  try dsimp only
  split_ifs <;> rfl

@[simp]
theorem bgCycle_rainSpeed (reg : Nat) (s : Game) :
    (bgCycle reg s).rainSpeed = s.rainSpeed := by
  unfold bgCycle
  try dsimp only
  split_ifs <;> rfl

@[simp]
theorem bgCycle_raindrops (reg : Nat) (s : Game) :
    (bgCycle reg s).raindrops = s.raindrops := by
  unfold bgCycle
  try dsimp only
  split_ifs <;> rfl

@[simp]
theorem bgCycle_randCalls (reg : Nat) (s : Game) :
    (bgCycle reg s).randCalls = s.randCalls := by
  unfold bgCycle
  try dsimp only
  split_ifs <;> rfl

@[simp]
theorem resetControl_prevKeys (rand : Nat → Nat) (reg : Nat) (s : Game) :
    (resetControl rand reg s).prevKeys = s.prevKeys := by
  unfold resetControl InitRain
  try dsimp only
  split_ifs <;> rfl

@[simp]
theorem resetControl_gameState (rand : Nat → Nat) (reg : Nat) (s : Game) :
    (resetControl rand reg s).gameState = s.gameState := by
  unfold resetControl InitRain
  try dsimp only
  split_ifs <;> rfl

@[simp]
theorem resetControl_bgColorIndex (rand : Nat → Nat) (reg : Nat) (s : Game) :
    (resetControl rand reg s).bgColorIndex = s.bgColorIndex := by
  unfold resetControl InitRain
  try dsimp only
  split_ifs <;> rfl

@[simp]
theorem menuReturn_prevKeys (reg : Nat) (s : Game) :
    (menuReturn reg s).prevKeys = s.prevKeys := by
  unfold menuReturn
  try dsimp only
  split_ifs <;> rfl

@[simp]
theorem menuReturn_windForce (reg : Nat) (s : Game) :
    (menuReturn reg s).windForce = s.windForce := by
  unfold menuReturn
  try dsimp only
  split_ifs <;> rfl

@[simp]
theorem menuReturn_thunderTimer (reg : Nat) (s : Game) :
    (menuReturn reg s).thunderTimer = s.thunderTimer := by
  unfold menuReturn
  try dsimp only
  split_ifs <;> rfl

@[simp]
theorem menuReturn_rainSpeed (reg : Nat) (s : Game) :
    (menuReturn reg s).rainSpeed = s.rainSpeed := by
  unfold menuReturn
  try dsimp only
  split_ifs <;> rfl

@[simp]
theorem menuReturn_bgColorIndex (reg : Nat) (s : Game) :
    (menuReturn reg s).bgColorIndex = s.bgColorIndex := by
  unfold menuReturn
  try dsimp only
  split_ifs <;> rfl

@[simp]
theorem menuReturn_raindrops (reg : Nat) (s : Game) :
    (menuReturn reg s).raindrops = s.raindrops := by
  unfold menuReturn
  try dsimp only
  split_ifs <;> rfl

@[simp]
theorem menuReturn_randCalls (reg : Nat) (s : Game) :
    (menuReturn reg s).randCalls = s.randCalls := by
  unfold menuReturn
  try dsimp only
  split_ifs <;> rfl

/-! ## Key masks and rising edges -/

theorem and_two_pow_ne_zero (x n : Nat) : x &&& 2 ^ n ≠ 0 ↔ x.testBit n = true := by
  constructor
  · intro h
    by_contra hb
    apply h
    apply Nat.eq_of_testBit_eq
    intro i
    simp only [Nat.testBit_and, Nat.testBit_two_pow, Nat.zero_testBit]
    by_cases hi : n = i
    · subst hi
      simp [hb]
    · simp [hi]
  · intro hb h
    have h2 : (x &&& 2 ^ n).testBit n = true := by
      simp [Nat.testBit_and, Nat.testBit_two_pow, hb]
    rw [h] at h2
    simp at h2

theorem and_two_pow_eq_zero (x n : Nat) : x &&& 2 ^ n = 0 ↔ x.testBit n = false := by
  have h := and_two_pow_ne_zero x n
  constructor
  · intro h0
    by_contra hb
    exact (h.mpr (by simpa using hb)) h0
  · intro hb
    by_contra h0
    rw [h.mp h0] at hb
    exact Bool.noConfusion hb

theorem notKeyInput_testBit (reg i : Nat) :
    (notKeyInput reg).testBit i = (decide (i < 16) && !reg.testBit i) := by
  unfold notKeyInput
  have h1 : (0xFFFF : Nat) = 2 ^ 16 - 1 := by norm_num
  have h2 : (0x10000 : Nat) = 2 ^ 16 := by norm_num
  rw [h1, h2, Nat.testBit_xor, Nat.testBit_two_pow_sub_one, Nat.testBit_mod_two_pow]
  by_cases h : i < 16 <;> simp [h]

theorem keysOf_testBit (reg i : Nat) :
    (keysOf reg).testBit i = (decide (i < 10) && !reg.testBit i) := by
  unfold keysOf
  have h1 : (0x03FF : Nat) = 2 ^ 10 - 1 := by norm_num
  rw [h1, Nat.testBit_and, Nat.testBit_two_pow_sub_one, notKeyInput_testBit]
  by_cases h : i < 10
  · have h16 : i < 16 := by omega
    simp [h, h16]
  · simp [h]

/-- On the ten button bits `~REG_KEYINPUT` and the local `keys` agree. -/
theorem notKeyInput_bit_eq_keysOf (reg n : Nat) (hn : n < 10) :
    (notKeyInput reg).testBit n = (keysOf reg).testBit n := by
  rw [notKeyInput_testBit, keysOf_testBit]
  have h16 : n < 16 := by omega
  simp [hn, h16]

/-- The function `ButtonPressed` on a single button bit. -/
theorem ButtonPressed_bit (reg prev n : Nat) (hn : n < 10) :
    ButtonPressed reg prev (2 ^ n) = ((keysOf reg).testBit n && !prev.testBit n) := by
  unfold ButtonPressed
  rw [← notKeyInput_bit_eq_keysOf reg n hn]
  by_cases h1 : (notKeyInput reg).testBit n = true
  · by_cases h2 : prev.testBit n = true
    · have a := (and_two_pow_ne_zero _ n).mpr h1
      have b := (and_two_pow_ne_zero _ n).mpr h2
      simp [h1, h2, a, b]
    · have a := (and_two_pow_ne_zero _ n).mpr h1
      have b := (and_two_pow_eq_zero prev n).mpr (by simpa using h2)
      simp [h1, h2, a, b]
  · have a := (and_two_pow_eq_zero (notKeyInput reg) n).mpr (by simpa using h1)
    simp [h1, a]

/-- The ten buttons of the key register, with their bit numbers. -/
theorem button_bits (key : Nat)
    (h : key ∈ [KEY_A, KEY_B, KEY_SELECT, KEY_START, KEY_RIGHT, KEY_LEFT, KEY_UP, KEY_DOWN,
      KEY_R, KEY_L]) : ∃ n, n < 10 ∧ key = 2 ^ n := by
  simp only [List.mem_cons, List.mem_singleton, List.not_mem_nil, or_false] at h
  rcases h with h | h | h | h | h | h | h | h | h | h
  · exact ⟨0, by norm_num, by rw [h]; rfl⟩
  · exact ⟨1, by norm_num, by rw [h]; rfl⟩
  · exact ⟨2, by norm_num, by rw [h]; rfl⟩
  · exact ⟨3, by norm_num, by rw [h]; rfl⟩
  · exact ⟨4, by norm_num, by rw [h]; rfl⟩
  · exact ⟨5, by norm_num, by rw [h]; rfl⟩
  · exact ⟨6, by norm_num, by rw [h]; rfl⟩
  · exact ⟨7, by norm_num, by rw [h]; rfl⟩
  · exact ⟨8, by norm_num, by rw [h]; rfl⟩
  · exact ⟨9, by norm_num, by rw [h]; rfl⟩

/-- The function `ButtonPressed` is a rising-edge test against the stored mask. -/
theorem ButtonPressed_iff (reg prev key : Nat)
    (h : key ∈ [KEY_A, KEY_B, KEY_SELECT, KEY_START, KEY_RIGHT, KEY_LEFT, KEY_UP, KEY_DOWN,
      KEY_R, KEY_L]) :
    ButtonPressed reg prev key = true ↔ keysOf reg &&& key ≠ 0 ∧ prev &&& key = 0 := by
  obtain ⟨n, hn, rfl⟩ := button_bits key h
  rw [ButtonPressed_bit reg prev n hn, and_two_pow_ne_zero, and_two_pow_eq_zero]
  simp

/-! ## What HandleInput and UpdateGame do to each global -/

theorem HandleInput_prevKeys (rand : Nat → Nat) (reg : Nat) (s : Game) :
    (HandleInput rand reg s).prevKeys = keysOf reg := rfl

theorem HandleInput_menu (rand : Nat → Nat) (reg : Nat) (s : Game)
    (h : s.gameState = GameState.STATE_MENU) :
    HandleInput rand reg s =
      if ButtonPressed reg s.prevKeys KEY_A then
        { InitRain rand { s with gameState := GameState.STATE_RAIN } with prevKeys := keysOf reg }
      else { s with prevKeys := keysOf reg } := by
  obtain ⟨a1, a2, a3, a4, a5, a6, a7, a8, a9, a10, a11, a12⟩ := s
  dsimp only at h
  subst h
  unfold HandleInput
  dsimp only
  split_ifs <;> rfl

theorem HandleInput_rain (rand : Nat → Nat) (reg : Nat) (s : Game)
    (h : s.gameState = GameState.STATE_RAIN) :
    HandleInput rand reg s =
      { menuReturn reg (resetControl rand reg (bgCycle reg (thunderControl reg
          (speedDown reg (speedUp reg (windControl (keysOf reg) s)))))) with
        prevKeys := keysOf reg } := by
  obtain ⟨a1, a2, a3, a4, a5, a6, a7, a8, a9, a10, a11, a12⟩ := s
  dsimp only at h
  subst h
  rfl

theorem HandleInput_gameState_rain (rand : Nat → Nat) (reg : Nat) (s : Game)
    (h : s.gameState = GameState.STATE_RAIN) :
    (HandleInput rand reg s).gameState =
      if ButtonPressed reg s.prevKeys KEY_B then GameState.STATE_MENU
      else GameState.STATE_RAIN := by
  rw [HandleInput_rain rand reg s h]
  simp only [menuReturn, resetControl_prevKeys, bgCycle_prevKeys, thunderControl_prevKeys,
    speedDown_prevKeys, speedUp_prevKeys, windControl_prevKeys]
  split_ifs
  · rfl
  · simp [h]

theorem HandleInput_gameState_menu (rand : Nat → Nat) (reg : Nat) (s : Game)
    (h : s.gameState = GameState.STATE_MENU) :
    (HandleInput rand reg s).gameState =
      if ButtonPressed reg s.prevKeys KEY_A then GameState.STATE_RAIN
      else GameState.STATE_MENU := by
  rw [HandleInput_menu rand reg s h]
  split_ifs
  · rfl
  · simp [h]

theorem HandleInput_bgColorIndex (rand : Nat → Nat) (reg : Nat) (s : Game) :
    (HandleInput rand reg s).bgColorIndex =
      if s.gameState = GameState.STATE_RAIN ∧ ButtonPressed reg s.prevKeys KEY_SELECT = true then
        (s.bgColorIndex + 1) % NUM_BG_COLORS
      else s.bgColorIndex := by
  cases hg : s.gameState with
  | STATE_MENU =>
    rw [HandleInput_menu rand reg s hg]
    split_ifs <;> simp_all [InitRain]
  | STATE_RAIN =>
    rw [HandleInput_rain rand reg s hg]
    simp only [menuReturn_bgColorIndex, resetControl_bgColorIndex, bgCycle,
      thunderControl_prevKeys, speedDown_prevKeys, speedUp_prevKeys, windControl_prevKeys]
    split_ifs <;> simp_all

/-- A tick of `HandleInput` in Rain state in which no edge-triggered action fires. -/
theorem HandleInput_rain_quiet (rand : Nat → Nat) (reg : Nat) (s : Game)
    (h : s.gameState = GameState.STATE_RAIN)
    (hU : ButtonPressed reg s.prevKeys KEY_UP = false)
    (hD : ButtonPressed reg s.prevKeys KEY_DOWN = false)
    (hL : ButtonPressed reg s.prevKeys KEY_L = false)
    (hR : ButtonPressed reg s.prevKeys KEY_R = false)
    (hSel : ButtonPressed reg s.prevKeys KEY_SELECT = false)
    (hSt : ButtonPressed reg s.prevKeys KEY_START = false)
    (hB : ButtonPressed reg s.prevKeys KEY_B = false) :
    HandleInput rand reg s = { windControl (keysOf reg) s with prevKeys := keysOf reg } := by
  rw [HandleInput_rain rand reg s h]
  have e1 : speedUp reg (windControl (keysOf reg) s) = windControl (keysOf reg) s := by
    simp [speedUp, hU]
  have e2 : speedDown reg (windControl (keysOf reg) s) = windControl (keysOf reg) s := by
    simp [speedDown, hD]
  have e3 : thunderControl reg (windControl (keysOf reg) s) = windControl (keysOf reg) s := by
    simp [thunderControl, hL, hR]
  have e4 : bgCycle reg (windControl (keysOf reg) s) = windControl (keysOf reg) s := by
    simp [bgCycle, hSel]
  have e5 : resetControl rand reg (windControl (keysOf reg) s) = windControl (keysOf reg) s := by
    simp [resetControl, hSt]
  have e6 : menuReturn reg (windControl (keysOf reg) s) = windControl (keysOf reg) s := by
    simp [menuReturn, hB]
  rw [e1, e2, e3, e4, e5, e6]

theorem UpdateGame_prevKeys (rand : Nat → Nat) (s : Game) :
    (UpdateGame rand s).prevKeys = s.prevKeys := by
  unfold UpdateGame UpdateRain
  dsimp only
  split <;> first | rfl | (split_ifs <;> rfl)

theorem UpdateGame_gameState (rand : Nat → Nat) (s : Game) :
    (UpdateGame rand s).gameState = s.gameState := by
  unfold UpdateGame UpdateRain
  dsimp only
  split <;> first | rfl | (split_ifs <;> rfl)

theorem UpdateGame_bgColorIndex (rand : Nat → Nat) (s : Game) :
    (UpdateGame rand s).bgColorIndex = s.bgColorIndex := by
  unfold UpdateGame UpdateRain
  dsimp only
  split <;> first | rfl | (split_ifs <;> rfl)

theorem UpdateGame_windForce (rand : Nat → Nat) (s : Game) :
    (UpdateGame rand s).windForce = s.windForce := by
  unfold UpdateGame UpdateRain
  dsimp only
  split <;> first | rfl | (split_ifs <;> rfl)

theorem UpdateGame_rainSpeed (rand : Nat → Nat) (s : Game) :
    (UpdateGame rand s).rainSpeed = s.rainSpeed := by
  unfold UpdateGame UpdateRain
  dsimp only
  split <;> first | rfl | (split_ifs <;> rfl)

/-- In Rain state `UpdateGame` decrements the thunder timer twice: once inside `UpdateRain`
and once more itself, each time only while it is positive. -/
theorem UpdateGame_thunderTimer_rain (rand : Nat → Nat) (s : Game)
    (h : s.gameState = GameState.STATE_RAIN) :
    (UpdateGame rand s).thunderTimer = s.thunderTimer - 2 := by
  unfold UpdateGame UpdateRain
  simp only [h]
  split_ifs <;> dsimp only at * <;> omega

/-! ## Particle motion -/

theorem UpdateRain_raindrops (rand : Nat → Nat) (s : Game) :
    (UpdateRain rand s).raindrops =
      (updateLoop rand s.windForce s.rainSpeed s.raindrops s.randCalls).1 := by
  unfold UpdateRain
  dsimp only
  split_ifs <;> rfl

theorem updateDrop_y (rand : Nat → Nat) (w : Int) (rs : Nat) (d : Raindrop) (k : Nat)
    (hlo : -32768 ≤ d.y + d.speed) (hhi : d.y + d.speed ≤ 32767) :
    (d.y + d.speed < SCREEN_HEIGHT → (updateDrop rand w rs d k).1.y = d.y + d.speed) ∧
      (SCREEN_HEIGHT ≤ d.y + d.speed →
        (updateDrop rand w rs d k).1.y = -((rand k : Int) % 50)) := by
  simp only [updateDrop, toS16, SCREEN_HEIGHT, SCREEN_WIDTH]
  constructor
  · intro h
    split_ifs <;> dsimp only at * <;> omega
  · intro h
    split_ifs <;> dsimp only at * <;> omega

theorem Reachable_rainStart : Reachable zeroRand rainStart :=
  Reachable.update _ (Reachable.input regA _ Reachable.boot)

/-- C1: in every state the program reaches from `InitRain` (any register values, any
`rand()` results) the array holds `MAX_RAINDROPS` particles and each has
`-10 ≤ x < SCREEN_WIDTH + 10`; the bound also holds directly after `UpdateRain` and directly
after `InitRain`. -/
theorem x_wrap_invariant (rand : Nat → Nat) (s : Game) (h : Reachable rand s) :
    s.raindrops.length = MAX_RAINDROPS ∧
      (∀ d ∈ s.raindrops, -10 ≤ d.x ∧ d.x < SCREEN_WIDTH + 10) ∧
      (∀ d ∈ (UpdateRain rand s).raindrops, -10 ≤ d.x ∧ d.x < SCREEN_WIDTH + 10) ∧
      (∀ d ∈ (InitRain rand s).raindrops, -10 ≤ d.x ∧ d.x < SCREEN_WIDTH + 10) := by
  have hI := Inv_of_Reachable rand s h
  have key : ∀ t : Game, Inv t → ∀ d ∈ t.raindrops, -10 ≤ d.x ∧ d.x < SCREEN_WIDTH + 10 := by
    intro t ht d hd
    obtain ⟨a1, a2, -⟩ := ht.2.2.2.2 d hd
    exact ⟨a1, by simpa [SCREEN_WIDTH] using a2⟩
  exact ⟨hI.1, key s hI, key _ (Inv_UpdateRain rand s hI), key _ (Inv_InitRain rand s hI.1)⟩

theorem x_wrap_invariant_witness :
    Reachable zeroRand rainStart ∧ rainStart.raindrops.length = MAX_RAINDROPS ∧
      (∀ d ∈ rainStart.raindrops, -10 ≤ d.x ∧ d.x < SCREEN_WIDTH + 10) ∧
      (∀ d ∈ (UpdateRain zeroRand rainStart).raindrops, -10 ≤ d.x ∧ d.x < SCREEN_WIDTH + 10) ∧
      (∀ d ∈ (InitRain zeroRand rainStart).raindrops, -10 ≤ d.x ∧ d.x < SCREEN_WIDTH + 10) :=
  ⟨Reachable_rainStart, x_wrap_invariant zeroRand rainStart Reachable_rainStart⟩

theorem Reachable_runTicks (rand : Nat → Nat) (regs : List Nat) (s : Game)
    (h : Reachable rand s) : Reachable rand (runTicks rand s regs) := by
  induction regs generalizing s with
  | nil => exact h
  | cons reg regs ih => exact ih _ (Reachable.update _ (Reachable.input reg _ h))

theorem Reachable_rainAt156 : Reachable zeroRand rainAt156 :=
  Reachable_runTicks zeroRand _ _ Reachable.boot

/-- In a reachable state `y + speed` of a particle fits an `s16` with room to spare. -/
theorem Reachable_y_speed (rand : Nat → Nat) (s : Game) (h : Reachable rand s)
    (d : Raindrop) (hd : d ∈ s.raindrops) : -97 ≤ d.y + d.speed ∧ d.y + d.speed ≤ 166 := by
  obtain ⟨-, h2, -, -, h5⟩ := Inv_of_Reachable rand s h
  obtain ⟨-, -, a3, a4, a5, -, -⟩ := h5 d hd
  constructor <;> omega

/-- One call of `UpdateRain` on a particle whose `y + speed` fits an `s16`. -/
theorem UpdateRain_y_of_fits (rand : Nat → Nat) (s : Game) (i : Nat) (d : Raindrop)
    (hd : s.raindrops[i]? = some d)
    (hlo : -32768 ≤ d.y + d.speed) (hhi : d.y + d.speed ≤ 32767) :
    ∃ d', (UpdateRain rand s).raindrops[i]? = some d' ∧
      (d.y + d.speed < SCREEN_HEIGHT → d'.y = d.y + d.speed) ∧
      (SCREEN_HEIGHT ≤ d.y + d.speed →
        (∃ j, d'.y = -((rand j : Int) % 50)) ∧ -49 ≤ d'.y ∧ d'.y ≤ 0) := by
  obtain ⟨j, hj⟩ := updateLoop_getElem? rand s.windForce s.rainSpeed s.raindrops s.randCalls i d hd
  refine ⟨_, by rw [UpdateRain_raindrops]; exact hj, ?_, ?_⟩
  · exact (updateDrop_y rand _ _ d j hlo hhi).1
  · intro h
    have e := (updateDrop_y rand s.windForce s.rainSpeed d j hlo hhi).2 h
    refine ⟨⟨j, e⟩, ?_, ?_⟩ <;> omega

/-- C2 (amended): for the particle `d` at any index `i` of a reachable state and every
`rand()` stream, one call of `UpdateRain` leaves a particle `d'` at index `i` with
`d'.y = d.y + d.speed` when `d.y + d.speed < SCREEN_HEIGHT`; otherwise the particle is
recycled within the same call with `d'.y = -(rand() % 50)`, so `-49 ≤ d'.y ≤ 0`. -/
theorem UpdateRain_y (rand : Nat → Nat) (s : Game) (hs : Reachable rand s) (i : Nat)
    (d : Raindrop) (hd : s.raindrops[i]? = some d) :
    ∃ d', (UpdateRain rand s).raindrops[i]? = some d' ∧
      (d.y + d.speed < SCREEN_HEIGHT → d'.y = d.y + d.speed) ∧
      (SCREEN_HEIGHT ≤ d.y + d.speed →
        (∃ j, d'.y = -((rand j : Int) % 50)) ∧ -49 ≤ d'.y ∧ d'.y ≤ 0) := by
  obtain ⟨h1, h2⟩ := Reachable_y_speed rand s hs d (List.getElem?_mem hd)
  exact UpdateRain_y_of_fits rand s i d hd (by omega) (by omega)

set_option maxRecDepth 1000000 in
theorem UpdateRain_y_witness :
    Reachable zeroRand rainAt156 ∧
      rainAt156.raindrops[0]? = some { x := 0, y := 156, length := 2, speed := 4, alpha := 0 } ∧
      ∃ d', (UpdateRain zeroRand rainAt156).raindrops[0]? = some d' ∧
        ((156 : Int) + 4 < SCREEN_HEIGHT → d'.y = 156 + 4) ∧
        (SCREEN_HEIGHT ≤ (156 : Int) + 4 →
          (∃ j, d'.y = -((zeroRand j : Int) % 50)) ∧ -49 ≤ d'.y ∧ d'.y ≤ 0) :=
  ⟨Reachable_rainAt156, by decide,
    UpdateRain_y zeroRand rainAt156 Reachable_rainAt156 0
      { x := 0, y := 156, length := 2, speed := 4, alpha := 0 } (by decide)⟩

set_option maxRecDepth 1000000 in
/-- C2 fails as stated: a recycled particle can get `y = 0`, which is not negative. In the run
from program start with `zeroRand`, the first particle is at `y = 156`, `speed = 4` after 39
ticks, and `UpdateRain` recycles it to `y = 0`; likewise the particle of the scenario
(`y = 158`, `speed = 4`, `length = 3`) is recycled to `y = 0` when `rand() % 50 = 0`. -/
theorem recycled_y_zero :
    (rainAt156.raindrops[0]?).map (fun d => (d.y, d.speed)) = some (156, 4) ∧
      ((UpdateRain zeroRand rainAt156).raindrops[0]?).map Raindrop.y = some 0 ∧
      (dropsAt158.raindrops[0]?).map (fun d => (d.y, d.speed, d.length)) = some (158, 4, 3) ∧
      ((UpdateRain zeroRand dropsAt158).raindrops[0]?).map Raindrop.y = some 0 := by
  decide

/-! ## Ticks with given keys held -/

theorem ButtonPressed_of_bit_clear (reg prev n : Nat) (hn : n < 10)
    (h : (keysOf reg).testBit n = false) : ButtonPressed reg prev (2 ^ n) = false := by
  rw [ButtonPressed_bit reg prev n hn, h]
  rfl

theorem ButtonPressed_of_prev_set (reg prev n : Nat) (hn : n < 10)
    (h : prev.testBit n = true) : ButtonPressed reg prev (2 ^ n) = false := by
  rw [ButtonPressed_bit reg prev n hn, h]
  simp

theorem windControl_none (keys : Nat) (s : Game) (hL : keys &&& KEY_LEFT = 0)
    (hR : keys &&& KEY_RIGHT = 0) : windControl keys s = s := by
  simp [windControl, hL, hR]

/-- A tick of `HandleInput` in Rain state with no button held changes only `prevKeys`. -/
theorem HandleInput_rain_none (rand : Nat → Nat) (reg : Nat) (s : Game)
    (h : s.gameState = GameState.STATE_RAIN) (hk : keysOf reg = 0) :
    HandleInput rand reg s = { s with prevKeys := 0 } := by
  have hb : ∀ n, n < 10 → ButtonPressed reg s.prevKeys (2 ^ n) = false := by
    intro n hn
    exact ButtonPressed_of_bit_clear reg _ n hn (by rw [hk]; simp)
  rw [HandleInput_rain_quiet rand reg s h (hb 6 (by norm_num)) (hb 7 (by norm_num))
    (hb 9 (by norm_num)) (hb 8 (by norm_num)) (hb 2 (by norm_num)) (hb 3 (by norm_num))
    (hb 1 (by norm_num)), hk, windControl_none 0 s (by simp) (by simp)]

/-- A tick of `HandleInput` in Rain state with a rising edge of R and nothing else held
fires `TriggerThunder(THUNDER_HEAVY)`. -/
theorem HandleInput_rain_R (rand : Nat → Nat) (reg : Nat) (s : Game)
    (h : s.gameState = GameState.STATE_RAIN) (hk : keysOf reg = KEY_R)
    (hp : s.prevKeys &&& KEY_R = 0) :
    HandleInput rand reg s = { TriggerThunder THUNDER_HEAVY s with prevKeys := KEY_R } := by
  have hb : ∀ n, n < 10 → n ≠ 8 → ButtonPressed reg s.prevKeys (2 ^ n) = false := by
    intro n hn h8
    refine ButtonPressed_of_bit_clear reg _ n hn ?_
    rw [hk]
    exact Nat.testBit_two_pow_of_ne (Ne.symm h8)
  have hR : ButtonPressed reg s.prevKeys KEY_R = true := by
    rw [ButtonPressed_iff reg _ KEY_R (by simp), hk]
    exact ⟨by decide, hp⟩
  have hw : windControl KEY_R s = s := windControl_none KEY_R s (by decide) (by decide)
  rw [HandleInput_rain rand reg s h, hk, hw]
  have e1 : speedUp reg s = s := by
    simp [speedUp, show ButtonPressed reg s.prevKeys KEY_UP = false from hb 6 (by norm_num) (by norm_num)]
  have e2 : speedDown reg s = s := by
    simp [speedDown, show ButtonPressed reg s.prevKeys KEY_DOWN = false from hb 7 (by norm_num) (by norm_num)]
  have e3 : thunderControl reg s = TriggerThunder THUNDER_HEAVY s := by
    simp [thunderControl, hR,
      show ButtonPressed reg s.prevKeys KEY_L = false from hb 9 (by norm_num) (by norm_num)]
  have e4 : bgCycle reg (TriggerThunder THUNDER_HEAVY s) = TriggerThunder THUNDER_HEAVY s := by
    simp [bgCycle, TriggerThunder,
      show ButtonPressed reg s.prevKeys KEY_SELECT = false from hb 2 (by norm_num) (by norm_num)]
  have e5 : resetControl rand reg (TriggerThunder THUNDER_HEAVY s) =
      TriggerThunder THUNDER_HEAVY s := by
    simp [resetControl, TriggerThunder,
      show ButtonPressed reg s.prevKeys KEY_START = false from hb 3 (by norm_num) (by norm_num)]
  have e6 : menuReturn reg (TriggerThunder THUNDER_HEAVY s) = TriggerThunder THUNDER_HEAVY s := by
    simp [menuReturn, TriggerThunder,
      show ButtonPressed reg s.prevKeys KEY_B = false from hb 1 (by norm_num) (by norm_num)]
  rw [e1, e2, e3, e4, e5, e6]

theorem tick_rain_none (rand : Nat → Nat) (reg : Nat) (s : Game)
    (h : s.gameState = GameState.STATE_RAIN) (hk : keysOf reg = 0) :
    (tick rand reg s).gameState = GameState.STATE_RAIN ∧
      (tick rand reg s).thunderTimer = s.thunderTimer - 2 := by
  unfold tick
  rw [HandleInput_rain_none rand reg s h hk]
  exact ⟨by rw [UpdateGame_gameState]; exact h, UpdateGame_thunderTimer_rain rand _ h⟩

theorem runTicks_rain_none (rand : Nat → Nat) (regs : List Nat) (s : Game)
    (h : s.gameState = GameState.STATE_RAIN) (hk : ∀ reg ∈ regs, keysOf reg = 0) :
    (runTicks rand s regs).thunderTimer = s.thunderTimer - 2 * regs.length := by
  induction regs generalizing s with
  | nil => simp [runTicks]
  | cons reg regs ih =>
    obtain ⟨h1, h2⟩ := tick_rain_none rand reg s h (hk reg (List.mem_cons_self _ _))
    simp only [runTicks, List.length_cons]
    rw [ih _ h1 (fun r hr => hk r (List.mem_cons_of_mem _ hr)), h2]
    omega

/-- C3 (code behaviour): after a rising edge of R fires `TriggerThunder(THUNDER_HEAVY)` in
Rain state, the timer is 30 after `HandleInput`, and after that tick and `n` further ticks
with no button held it is `30 - 2 * (n + 1)` (truncated at 0): it loses 2 per game tick,
because `UpdateRain` and `UpdateGame` each decrement it, and reaches 0 after 15 ticks. -/
theorem thunderTimer_two_per_tick (rand : Nat → Nat) (s : Game) (reg0 : Nat) (regs : List Nat)
    (h : s.gameState = GameState.STATE_RAIN) (hk0 : keysOf reg0 = KEY_R)
    (hp : s.prevKeys &&& KEY_R = 0) (hk : ∀ reg ∈ regs, keysOf reg = 0) :
    (HandleInput rand reg0 s).thunderTimer = THUNDER_DURATION ∧
      (HandleInput rand reg0 s).thunderIntensity = 16 ∧
      (runTicks rand s (reg0 :: regs)).thunderTimer = 30 - 2 * (regs.length + 1) := by
  have e := HandleInput_rain_R rand reg0 s h hk0 hp
  refine ⟨by rw [e]; rfl, by rw [e]; rfl, ?_⟩
  have g : (tick rand reg0 s).gameState = GameState.STATE_RAIN := by
    unfold tick
    rw [UpdateGame_gameState, e]
    exact h
  have t : (tick rand reg0 s).thunderTimer = 28 := by
    unfold tick
    rw [UpdateGame_thunderTimer_rain rand _ (by rw [e]; exact h), e]
    rfl
  simp only [runTicks]
  rw [runTicks_rain_none rand regs _ g hk, t]
  omega

set_option maxRecDepth 100000 in
theorem thunderTimer_two_per_tick_witness :
    rainStart.gameState = GameState.STATE_RAIN ∧ keysOf regR = KEY_R ∧
      rainStart.prevKeys &&& KEY_R = 0 ∧ (∀ reg ∈ List.replicate 14 regNone, keysOf reg = 0) ∧
      (HandleInput zeroRand regR rainStart).thunderTimer = THUNDER_DURATION ∧
      (HandleInput zeroRand regR rainStart).thunderIntensity = 16 ∧
      (runTicks zeroRand rainStart (regR :: List.replicate 14 regNone)).thunderTimer = 0 :=
  ⟨by decide, by decide, by decide, by decide,
    thunderTimer_two_per_tick zeroRand rainStart regR (List.replicate 14 regNone) (by decide)
      (by decide) (by decide) (by decide)⟩

theorem windControl_left (s : Game) :
    (windControl KEY_LEFT s).windForce =
      if s.windForce > -MAX_WIND then s.windForce - 1 else s.windForce := by
  have h1 : KEY_LEFT &&& KEY_LEFT ≠ 0 := by decide
  have h2 : KEY_LEFT &&& KEY_RIGHT = 0 := by decide
  simp only [windControl, h1, h2]
  split_ifs <;> simp_all

theorem tick_rain_left (rand : Nat → Nat) (reg : Nat) (s : Game)
    (h : s.gameState = GameState.STATE_RAIN) (hk : keysOf reg = KEY_LEFT) :
    (tick rand reg s).gameState = GameState.STATE_RAIN ∧
      (tick rand reg s).windForce =
        if s.windForce > -MAX_WIND then s.windForce - 1 else s.windForce := by
  have hb : ∀ n, n < 10 → n ≠ 5 → ButtonPressed reg s.prevKeys (2 ^ n) = false := by
    intro n hn h5
    refine ButtonPressed_of_bit_clear reg _ n hn ?_
    rw [hk]
    exact Nat.testBit_two_pow_of_ne (Ne.symm h5)
  have e := HandleInput_rain_quiet rand reg s h (hb 6 (by norm_num) (by norm_num))
    (hb 7 (by norm_num) (by norm_num)) (hb 9 (by norm_num) (by norm_num))
    (hb 8 (by norm_num) (by norm_num)) (hb 2 (by norm_num) (by norm_num))
    (hb 3 (by norm_num) (by norm_num)) (hb 1 (by norm_num) (by norm_num))
  unfold tick
  rw [UpdateGame_gameState, UpdateGame_windForce, e, hk]
  exact ⟨by simpa using h, windControl_left s⟩

theorem runTicks_rain_left (rand : Nat → Nat) (regs : List Nat) (s : Game)
    (h : s.gameState = GameState.STATE_RAIN) (hw : -MAX_WIND ≤ s.windForce)
    (hk : ∀ reg ∈ regs, keysOf reg = KEY_LEFT) :
    (runTicks rand s regs).windForce = max (s.windForce - (regs.length : Int)) (-MAX_WIND) := by
  induction regs generalizing s with
  | nil =>
    simp only [runTicks, List.length_nil, MAX_WIND] at *
    omega
  | cons reg regs ih =>
    obtain ⟨h1, h2⟩ := tick_rain_left rand reg s h (hk reg (List.mem_cons_self _ _))
    simp only [runTicks, List.length_cons]
    have hw2 : -MAX_WIND ≤ (tick rand reg s).windForce := by
      rw [h2]
      simp only [MAX_WIND] at *
      split_ifs <;> omega
    rw [ih _ h1 hw2 (fun r hr => hk r (List.mem_cons_of_mem _ hr)), h2]
    simp only [MAX_WIND] at *
    push_cast
    split_ifs <;> omega

/-- C6: `windForce` stays in [-MAX_WIND, MAX_WIND] = [-3, 3] in every reachable state, for
any register values (Left and Right together included); and from a Rain state with
`windForce = 0`, after `n` ticks in which only Left is held `windForce = max (-n) (-3)`:
-1, -2, -3 after ticks 1..3 and -3 after every later tick. -/
theorem windForce_clamped (rand : Nat → Nat) :
    (∀ s, Reachable rand s → -MAX_WIND ≤ s.windForce ∧ s.windForce ≤ MAX_WIND) ∧
      (∀ s regs, s.gameState = GameState.STATE_RAIN → s.windForce = 0 →
        (∀ reg ∈ regs, keysOf reg = KEY_LEFT) →
        (runTicks rand s regs).windForce = max (-(regs.length : Int)) (-3)) := by
  constructor
  · intro s hs
    obtain ⟨-, -, h3, h4, -⟩ := Inv_of_Reachable rand s hs
    exact ⟨h3, h4⟩
  · intro s regs h h0 hk
    rw [runTicks_rain_left rand regs s h (by rw [h0]; decide) hk, h0]
    simp [MAX_WIND]

set_option maxRecDepth 100000 in
theorem windForce_clamped_witness :
    Reachable zeroRand rainStart ∧ rainStart.gameState = GameState.STATE_RAIN ∧
      rainStart.windForce = 0 ∧ (∀ reg ∈ List.replicate 10 regLeft, keysOf reg = KEY_LEFT) ∧
      (-MAX_WIND ≤ rainStart.windForce ∧ rainStart.windForce ≤ MAX_WIND) ∧
      (runTicks zeroRand rainStart (List.replicate 10 regLeft)).windForce = -3 ∧
      (List.range 11).map (fun n => (runTicks zeroRand rainStart (List.replicate n regLeft)).windForce)
        = [0, -1, -2, -3, -3, -3, -3, -3, -3, -3, -3] :=
  ⟨Reachable_rainStart, by decide, by decide, by decide,
    (windForce_clamped zeroRand).1 rainStart Reachable_rainStart,
    (windForce_clamped zeroRand).2 rainStart (List.replicate 10 regLeft) (by decide) (by decide)
      (by decide), by decide⟩

/-! ## Edge-triggered actions -/

theorem tick_bgColorIndex (rand : Nat → Nat) (reg : Nat) (s : Game) :
    (tick rand reg s).bgColorIndex =
      if s.gameState = GameState.STATE_RAIN ∧ ButtonPressed reg s.prevKeys KEY_SELECT = true then
        (s.bgColorIndex + 1) % NUM_BG_COLORS
      else s.bgColorIndex := by
  unfold tick
  rw [UpdateGame_bgColorIndex, HandleInput_bgColorIndex]

theorem tick_prevKeys (rand : Nat → Nat) (reg : Nat) (s : Game) :
    (tick rand reg s).prevKeys = keysOf reg := by
  unfold tick
  rw [UpdateGame_prevKeys, HandleInput_prevKeys]

/-- While Select stays held after a tick that already saw it, background cycling does not
fire again. -/
theorem runTicks_select_held (rand : Nat → Nat) (regs : List Nat) (s : Game)
    (hp : s.prevKeys &&& KEY_SELECT ≠ 0)
    (hk : ∀ reg ∈ regs, keysOf reg &&& KEY_SELECT ≠ 0) :
    (runTicks rand s regs).bgColorIndex = s.bgColorIndex := by
  induction regs generalizing s with
  | nil => rfl
  | cons reg regs ih =>
    have hnot : ButtonPressed reg s.prevKeys KEY_SELECT = false := by
      refine ButtonPressed_of_prev_set reg _ 2 (by norm_num) ?_
      exact (and_two_pow_ne_zero _ 2).mp hp
    simp only [runTicks]
    rw [ih (tick rand reg s)
      (by rw [tick_prevKeys]; exact hk reg (List.mem_cons_self _ _))
      (fun r hr => hk r (List.mem_cons_of_mem _ hr)), tick_bgColorIndex, hnot]
    simp

/-- C8: for each of the ten buttons `ButtonPressed` is true exactly when the button is set in
the current key mask and clear in `prevKeys`, and `HandleInput` stores the current mask in
`prevKeys`; so when Select is held over `n ≥ 1` consecutive ticks starting in Rain state with
Select clear in `prevKeys`, `bgColorIndex` advances by exactly one step in total. -/
theorem ButtonPressed_rising_edge (rand : Nat → Nat) :
    (∀ reg prev key,
        key ∈ [KEY_A, KEY_B, KEY_SELECT, KEY_START, KEY_RIGHT, KEY_LEFT, KEY_UP, KEY_DOWN,
          KEY_R, KEY_L] →
        (ButtonPressed reg prev key = true ↔ keysOf reg &&& key ≠ 0 ∧ prev &&& key = 0)) ∧
      (∀ reg s, (HandleInput rand reg s).prevKeys = keysOf reg) ∧
      (∀ s regs, s.gameState = GameState.STATE_RAIN → s.prevKeys &&& KEY_SELECT = 0 →
        regs ≠ [] → (∀ reg ∈ regs, keysOf reg &&& KEY_SELECT ≠ 0) →
        (runTicks rand s regs).bgColorIndex = (s.bgColorIndex + 1) % NUM_BG_COLORS) := by
  refine ⟨fun reg prev key h => ButtonPressed_iff reg prev key h,
    fun reg s => HandleInput_prevKeys rand reg s, ?_⟩
  intro s regs h hp hne hk
  cases regs with
  | nil => exact absurd rfl hne
  | cons reg regs =>
    have hk0 := hk reg (List.mem_cons_self _ _)
    have hfire : ButtonPressed reg s.prevKeys KEY_SELECT = true :=
      (ButtonPressed_iff reg _ KEY_SELECT (by simp)).mpr ⟨hk0, hp⟩
    simp only [runTicks]
    rw [runTicks_select_held rand regs (tick rand reg s) (by rw [tick_prevKeys]; exact hk0)
      (fun r hr => hk r (List.mem_cons_of_mem _ hr)), tick_bgColorIndex]
    simp [h, hfire]

set_option maxRecDepth 100000 in
theorem ButtonPressed_rising_edge_witness :
    (ButtonPressed regSelect 0 KEY_SELECT = true ↔
        keysOf regSelect &&& KEY_SELECT ≠ 0 ∧ 0 &&& KEY_SELECT = 0) ∧
      (HandleInput zeroRand regSelect rainStart).prevKeys = keysOf regSelect ∧
      rainStart.bgColorIndex = 0 ∧
      (runTicks zeroRand rainStart (List.replicate 5 regSelect)).bgColorIndex
        = (rainStart.bgColorIndex + 1) % NUM_BG_COLORS :=
  ⟨(ButtonPressed_rising_edge zeroRand).1 regSelect 0 KEY_SELECT (by decide),
    (ButtonPressed_rising_edge zeroRand).2.1 regSelect rainStart, by decide,
    (ButtonPressed_rising_edge zeroRand).2.2 rainStart (List.replicate 5 regSelect) (by decide)
      (by decide) (by decide) (by decide)⟩

/-! ## Speed levels -/

theorem speedUp_rainSpeed (reg : Nat) (s : Game) :
    (speedUp reg s).rainSpeed =
      if ButtonPressed reg s.prevKeys KEY_UP = true then
        (if s.rainSpeed = RAIN_SPEED_SLOW then RAIN_SPEED_MEDIUM
          else if s.rainSpeed = RAIN_SPEED_MEDIUM then RAIN_SPEED_FAST else s.rainSpeed)
      else s.rainSpeed := by
  unfold speedUp setAllSpeeds
  dsimp only
  split_ifs <;> rfl

theorem speedDown_rainSpeed (reg : Nat) (s : Game) :
    (speedDown reg s).rainSpeed =
      if ButtonPressed reg s.prevKeys KEY_DOWN = true then
        (if s.rainSpeed = RAIN_SPEED_FAST then RAIN_SPEED_MEDIUM
          else if s.rainSpeed = RAIN_SPEED_MEDIUM then RAIN_SPEED_SLOW else s.rainSpeed)
      else s.rainSpeed := by
  unfold speedDown setAllSpeeds
  dsimp only
  split_ifs <;> rfl

theorem setAllSpeeds_speed (s : Game) (h : s.rainSpeed = 2 ∨ s.rainSpeed = 4 ∨ s.rainSpeed = 6) :
    ∀ d ∈ (setAllSpeeds s).raindrops, d.speed = ((setAllSpeeds s).rainSpeed : Int) := by
  intro d hd
  simp only [setAllSpeeds, List.mem_map] at hd
  obtain ⟨e, -, rfl⟩ := hd
  exact toS8_level _ h

theorem speedUp_all (reg : Nat) (s : Game) (hI : Inv s)
    (hU : ButtonPressed reg s.prevKeys KEY_UP = true) :
    ∀ d ∈ (speedUp reg s).raindrops, d.speed = ((speedUp reg s).rainSpeed : Int) := by
  have hl := (Inv_speedUp reg s hI).2.1
  unfold speedUp at hl ⊢
  simp only [hU, if_true] at hl ⊢
  exact setAllSpeeds_speed _ hl

theorem speedDown_all (reg : Nat) (s : Game) (hI : Inv s)
    (hD : ButtonPressed reg s.prevKeys KEY_DOWN = true) :
    ∀ d ∈ (speedDown reg s).raindrops, d.speed = ((speedDown reg s).rainSpeed : Int) := by
  have hl := (Inv_speedDown reg s hI).2.1
  unfold speedDown at hl ⊢
  simp only [hD, if_true] at hl ⊢
  exact setAllSpeeds_speed _ hl

theorem speedDown_idle (reg : Nat) (s : Game)
    (hD : ButtonPressed reg s.prevKeys KEY_DOWN = false) : speedDown reg s = s := by
  simp [speedDown, hD]

theorem speedUp_idle (reg : Nat) (s : Game)
    (hU : ButtonPressed reg s.prevKeys KEY_UP = false) : speedUp reg s = s := by
  simp [speedUp, hU]

/-- In Rain state without a rising edge of Start, the particles, the speed level and the
number of `rand()` calls after `HandleInput` are those left by the two speed blocks. -/
theorem HandleInput_rain_noStart (rand : Nat → Nat) (reg : Nat) (s : Game)
    (h : s.gameState = GameState.STATE_RAIN)
    (hSt : ButtonPressed reg s.prevKeys KEY_START = false) :
    (HandleInput rand reg s).raindrops =
        (speedDown reg (speedUp reg (windControl (keysOf reg) s))).raindrops ∧
      (HandleInput rand reg s).rainSpeed =
        (speedDown reg (speedUp reg (windControl (keysOf reg) s))).rainSpeed ∧
      (HandleInput rand reg s).randCalls = s.randCalls := by
  rw [HandleInput_rain rand reg s h]
  have e : resetControl rand reg (bgCycle reg (thunderControl reg
      (speedDown reg (speedUp reg (windControl (keysOf reg) s))))) =
      bgCycle reg (thunderControl reg (speedDown reg (speedUp reg (windControl (keysOf reg) s)))) := by
    simp [resetControl, hSt]
  refine ⟨?_, ?_, ?_⟩
  · show (menuReturn reg _).raindrops = _
    rw [e]
    simp
  · show (menuReturn reg _).rainSpeed = _
    rw [e]
    simp
  · show (menuReturn reg _).randCalls = _
    rw [e]
    simp

/-- C9: in a reachable Rain state, when `HandleInput` sees a rising edge of Up or Down and no
rising edge of Start, afterwards each of the `MAX_RAINDROPS` particles has `speed` equal to
the resulting `rainSpeed`, which is one of the three levels. -/
theorem speed_change_overwrites_all (rand : Nat → Nat) (reg : Nat) (s : Game)
    (hr : Reachable rand s) (h : s.gameState = GameState.STATE_RAIN)
    (hUD : ButtonPressed reg s.prevKeys KEY_UP = true ∨
      ButtonPressed reg s.prevKeys KEY_DOWN = true)
    (hSt : ButtonPressed reg s.prevKeys KEY_START = false) :
    (HandleInput rand reg s).raindrops.length = MAX_RAINDROPS ∧
      (∀ d ∈ (HandleInput rand reg s).raindrops,
        d.speed = ((HandleInput rand reg s).rainSpeed : Int)) ∧
      ((HandleInput rand reg s).rainSpeed = RAIN_SPEED_SLOW ∨
        (HandleInput rand reg s).rainSpeed = RAIN_SPEED_MEDIUM ∨
        (HandleInput rand reg s).rainSpeed = RAIN_SPEED_FAST) := by
  have hI := Inv_of_Reachable rand s hr
  have hI2 := Inv_HandleInput rand reg s hI
  refine ⟨hI2.1, ?_, hI2.2.1⟩
  obtain ⟨e1, e2, -⟩ := HandleInput_rain_noStart rand reg s h hSt
  rw [e1, e2]
  have hW := Inv_windControl (keysOf reg) s hI
  by_cases hD : ButtonPressed reg s.prevKeys KEY_DOWN = true
  · exact speedDown_all reg _ (Inv_speedUp reg _ hW) (by simpa using hD)
  · have hU : ButtonPressed reg s.prevKeys KEY_UP = true := by
      rcases hUD with hU | hD2
      · exact hU
      · exact absurd hD2 hD
    rw [speedDown_idle reg _ (by simpa using hD)]
    exact speedUp_all reg _ hW (by simpa using hU)

set_option maxRecDepth 100000 in
theorem speed_change_overwrites_all_witness :
    Reachable zeroRand rainStart ∧ rainStart.gameState = GameState.STATE_RAIN ∧
      ButtonPressed regUp rainStart.prevKeys KEY_UP = true ∧
      ButtonPressed regUp rainStart.prevKeys KEY_START = false ∧
      (HandleInput zeroRand regUp rainStart).rainSpeed = 6 ∧
      (HandleInput zeroRand regUp rainStart).raindrops.length = MAX_RAINDROPS ∧
      (∀ d ∈ (HandleInput zeroRand regUp rainStart).raindrops,
        d.speed = ((HandleInput zeroRand regUp rainStart).rainSpeed : Int)) ∧
      ((HandleInput zeroRand regUp rainStart).rainSpeed = RAIN_SPEED_SLOW ∨
        (HandleInput zeroRand regUp rainStart).rainSpeed = RAIN_SPEED_MEDIUM ∨
        (HandleInput zeroRand regUp rainStart).rainSpeed = RAIN_SPEED_FAST) :=
  ⟨Reachable_rainStart, by decide, by decide, by decide, by decide,
    speed_change_overwrites_all zeroRand regUp rainStart Reachable_rainStart (by decide)
      (Or.inl (by decide)) (by decide)⟩

/-- C10: `rainSpeed` is one of the levels 2, 4, 6 in every reachable state. The Up block of
`HandleInput` moves 2 to 4, 4 to 6 and leaves 6; the Down block moves 6 to 4, 4 to 2 and
leaves 2; and that is the effect of the whole call in Rain state on a tick where the other
speed key and Start have no rising edge. -/
theorem rainSpeed_levels (rand : Nat → Nat) :
    (∀ s, Reachable rand s →
        s.rainSpeed = RAIN_SPEED_SLOW ∨ s.rainSpeed = RAIN_SPEED_MEDIUM ∨
          s.rainSpeed = RAIN_SPEED_FAST) ∧
      (∀ reg s, ButtonPressed reg s.prevKeys KEY_UP = true →
        (s.rainSpeed = 2 → (speedUp reg s).rainSpeed = 4) ∧
        (s.rainSpeed = 4 → (speedUp reg s).rainSpeed = 6) ∧
        (s.rainSpeed = 6 → (speedUp reg s).rainSpeed = 6)) ∧
      (∀ reg s, ButtonPressed reg s.prevKeys KEY_DOWN = true →
        (s.rainSpeed = 6 → (speedDown reg s).rainSpeed = 4) ∧
        (s.rainSpeed = 4 → (speedDown reg s).rainSpeed = 2) ∧
        (s.rainSpeed = 2 → (speedDown reg s).rainSpeed = 2)) ∧
      (∀ reg s, s.gameState = GameState.STATE_RAIN →
        ButtonPressed reg s.prevKeys KEY_UP = true →
        ButtonPressed reg s.prevKeys KEY_DOWN = false →
        ButtonPressed reg s.prevKeys KEY_START = false →
        (s.rainSpeed = 2 → (HandleInput rand reg s).rainSpeed = 4) ∧
        (s.rainSpeed = 4 → (HandleInput rand reg s).rainSpeed = 6) ∧
        (s.rainSpeed = 6 → (HandleInput rand reg s).rainSpeed = 6)) ∧
      (∀ reg s, s.gameState = GameState.STATE_RAIN →
        ButtonPressed reg s.prevKeys KEY_DOWN = true →
        ButtonPressed reg s.prevKeys KEY_UP = false →
        ButtonPressed reg s.prevKeys KEY_START = false →
        (s.rainSpeed = 6 → (HandleInput rand reg s).rainSpeed = 4) ∧
        (s.rainSpeed = 4 → (HandleInput rand reg s).rainSpeed = 2) ∧
        (s.rainSpeed = 2 → (HandleInput rand reg s).rainSpeed = 2)) := by
  refine ⟨fun s hs => (Inv_of_Reachable rand s hs).2.1, ?_, ?_, ?_, ?_⟩
  · intro reg s hU
    rw [speedUp_rainSpeed, if_pos hU]
    refine ⟨?_, ?_, ?_⟩ <;> intro hs <;>
      simp [hs, RAIN_SPEED_SLOW, RAIN_SPEED_MEDIUM, RAIN_SPEED_FAST]
  · intro reg s hD
    rw [speedDown_rainSpeed, if_pos hD]
    refine ⟨?_, ?_, ?_⟩ <;> intro hs <;>
      simp [hs, RAIN_SPEED_SLOW, RAIN_SPEED_MEDIUM, RAIN_SPEED_FAST]
  · intro reg s h hU hD hSt
    have e := (HandleInput_rain_noStart rand reg s h hSt).2.1
    rw [speedDown_idle reg _ (by simpa using hD), speedUp_rainSpeed] at e
    simp only [windControl_prevKeys, windControl_rainSpeed, hU, if_true] at e
    rw [e]
    refine ⟨?_, ?_, ?_⟩ <;> intro hs <;>
      simp [hs, RAIN_SPEED_SLOW, RAIN_SPEED_MEDIUM, RAIN_SPEED_FAST]
  · intro reg s h hD hU hSt
    have e := (HandleInput_rain_noStart rand reg s h hSt).2.1
    rw [speedUp_idle reg _ (by simpa using hU), speedDown_rainSpeed] at e
    simp only [windControl_prevKeys, windControl_rainSpeed, hD, if_true] at e
    rw [e]
    refine ⟨?_, ?_, ?_⟩ <;> intro hs <;>
      simp [hs, RAIN_SPEED_SLOW, RAIN_SPEED_MEDIUM, RAIN_SPEED_FAST]

set_option maxRecDepth 100000 in
theorem rainSpeed_levels_witness :
    Reachable zeroRand rainStart ∧ rainStart.rainSpeed = 4 ∧
      (rainStart.rainSpeed = RAIN_SPEED_SLOW ∨ rainStart.rainSpeed = RAIN_SPEED_MEDIUM ∨
        rainStart.rainSpeed = RAIN_SPEED_FAST) ∧
      (HandleInput zeroRand regUp rainStart).rainSpeed = 6 :=
  ⟨Reachable_rainStart, by decide,
    (rainSpeed_levels zeroRand).1 rainStart Reachable_rainStart,
    ((rainSpeed_levels zeroRand).2.2.2.1 regUp rainStart (by decide) (by decide) (by decide)
      (by decide)).2.1 (by decide)⟩

/-! ## Scene transitions -/

theorem keysOf_release_B (reg n : Nat) (hn : n ≠ 1) :
    (keysOf (reg ||| KEY_B)).testBit n = (keysOf reg).testBit n := by
  have hB : KEY_B = 2 ^ 1 := rfl
  rw [keysOf_testBit, keysOf_testBit, Nat.testBit_or, hB,
    Nat.testBit_two_pow_of_ne (Ne.symm hn)]
  simp

theorem ButtonPressed_release_B (reg prev n : Nat) (hn : n < 10) (h1 : n ≠ 1) :
    ButtonPressed (reg ||| KEY_B) prev (2 ^ n) = ButtonPressed reg prev (2 ^ n) := by
  rw [ButtonPressed_bit _ prev n hn, ButtonPressed_bit _ prev n hn, keysOf_release_B reg n h1]

theorem ButtonPressed_B_released (reg prev : Nat) :
    ButtonPressed (reg ||| KEY_B) prev KEY_B = false := by
  refine ButtonPressed_of_bit_clear _ prev 1 (by norm_num) ?_
  have hB : KEY_B = 2 ^ 1 := rfl
  rw [keysOf_testBit, Nat.testBit_or, hB, Nat.testBit_two_pow_self]
  simp

theorem windControl_release_B (reg : Nat) (s : Game) :
    windControl (keysOf (reg ||| KEY_B)) s = windControl (keysOf reg) s := by
  have hL : (keysOf (reg ||| KEY_B) &&& KEY_LEFT ≠ 0) ↔ (keysOf reg &&& KEY_LEFT ≠ 0) := by
    have e : KEY_LEFT = 2 ^ 5 := rfl
    rw [e, and_two_pow_ne_zero, and_two_pow_ne_zero, keysOf_release_B reg 5 (by norm_num)]
  have hR : (keysOf (reg ||| KEY_B) &&& KEY_RIGHT ≠ 0) ↔ (keysOf reg &&& KEY_RIGHT ≠ 0) := by
    have e : KEY_RIGHT = 2 ^ 4 := rfl
    rw [e, and_two_pow_ne_zero, and_two_pow_ne_zero, keysOf_release_B reg 4 (by norm_num)]
  unfold windControl
  simp only [hL, hR]

/-- The blocks of the Rain case before the return-to-menu block do not depend on B. -/
theorem rain_blocks_release_B (rand : Nat → Nat) (reg : Nat) (s : Game) :
    resetControl rand (reg ||| KEY_B) (bgCycle (reg ||| KEY_B) (thunderControl (reg ||| KEY_B)
      (speedDown (reg ||| KEY_B) (speedUp (reg ||| KEY_B)
        (windControl (keysOf (reg ||| KEY_B)) s))))) =
    resetControl rand reg (bgCycle reg (thunderControl reg
      (speedDown reg (speedUp reg (windControl (keysOf reg) s))))) := by
  have hU : ∀ p, ButtonPressed (reg ||| KEY_B) p KEY_UP = ButtonPressed reg p KEY_UP :=
    fun p => ButtonPressed_release_B reg p 6 (by norm_num) (by norm_num)
  have hD : ∀ p, ButtonPressed (reg ||| KEY_B) p KEY_DOWN = ButtonPressed reg p KEY_DOWN :=
    fun p => ButtonPressed_release_B reg p 7 (by norm_num) (by norm_num)
  have hL : ∀ p, ButtonPressed (reg ||| KEY_B) p KEY_L = ButtonPressed reg p KEY_L :=
    fun p => ButtonPressed_release_B reg p 9 (by norm_num) (by norm_num)
  have hR : ∀ p, ButtonPressed (reg ||| KEY_B) p KEY_R = ButtonPressed reg p KEY_R :=
    fun p => ButtonPressed_release_B reg p 8 (by norm_num) (by norm_num)
  have hSel : ∀ p, ButtonPressed (reg ||| KEY_B) p KEY_SELECT = ButtonPressed reg p KEY_SELECT :=
    fun p => ButtonPressed_release_B reg p 2 (by norm_num) (by norm_num)
  have hSt : ∀ p, ButtonPressed (reg ||| KEY_B) p KEY_START = ButtonPressed reg p KEY_START :=
    fun p => ButtonPressed_release_B reg p 3 (by norm_num) (by norm_num)
  have e1 : ∀ t, speedUp (reg ||| KEY_B) t = speedUp reg t := by
    intro t; simp only [speedUp, hU]
  have e2 : ∀ t, speedDown (reg ||| KEY_B) t = speedDown reg t := by
    intro t; simp only [speedDown, hD]
  have e3 : ∀ t, thunderControl (reg ||| KEY_B) t = thunderControl reg t := by
    intro t; simp only [thunderControl, hL, hR]
  have e4 : ∀ t, bgCycle (reg ||| KEY_B) t = bgCycle reg t := by
    intro t; simp only [bgCycle, hSel]
  have e5 : ∀ t, resetControl rand (reg ||| KEY_B) t = resetControl rand reg t := by
    intro t; simp only [resetControl, hSt]
  rw [windControl_release_B, e1, e2, e3, e4, e5]

/-- In Rain state a rising edge of B changes the outcome of `HandleInput` only by setting
`gameState` to `STATE_MENU`: the rest is what the same call does with B released. -/
theorem HandleInput_rain_B (rand : Nat → Nat) (reg : Nat) (s : Game)
    (h : s.gameState = GameState.STATE_RAIN)
    (hB : ButtonPressed reg s.prevKeys KEY_B = true) :
    HandleInput rand reg s =
      { HandleInput rand (reg ||| KEY_B) s with
        gameState := GameState.STATE_MENU, prevKeys := keysOf reg } := by
  rw [HandleInput_rain rand reg s h, HandleInput_rain rand (reg ||| KEY_B) s h,
    rain_blocks_release_B]
  have e1 : ∀ t : Game, t.prevKeys = s.prevKeys →
      menuReturn reg t = { t with gameState := GameState.STATE_MENU } := by
    intro t ht
    simp [menuReturn, ht, hB]
  have e2 : ∀ t : Game, menuReturn (reg ||| KEY_B) t = t := by
    intro t
    simp [menuReturn, ButtonPressed_B_released]
  rw [e1 _ (by simp), e2]

theorem initLoop_eq_of_alpha (rand : Nat → Nat) (rs : Nat) (a b : List Raindrop) (k : Nat)
    (h : a.map (fun d => d.alpha) = b.map (fun d => d.alpha)) :
    initLoop rand rs a k = initLoop rand rs b k := by
  induction a generalizing b k with
  | nil =>
    cases b with
    | nil => rfl
    | cons e b => simp at h
  | cons d a ih =>
    cases b with
    | nil => simp at h
    | cons e b =>
      simp only [List.map_cons, List.cons.injEq] at h
      simp only [initLoop, initDrop, h.1, ih b (k + 4) h.2]

theorem setAllSpeeds_fields (s : Game) :
    (setAllSpeeds s).raindrops.map (fun d => (d.x, d.y, d.length, d.alpha)) =
      s.raindrops.map (fun d => (d.x, d.y, d.length, d.alpha)) := by
  simp [setAllSpeeds, List.map_map, Function.comp_def]

theorem speedUp_fields (reg : Nat) (s : Game) :
    (speedUp reg s).raindrops.map (fun d => (d.x, d.y, d.length, d.alpha)) =
      s.raindrops.map (fun d => (d.x, d.y, d.length, d.alpha)) := by
  unfold speedUp
  dsimp only
  split_ifs <;> first | rfl | exact setAllSpeeds_fields _

theorem speedDown_fields (reg : Nat) (s : Game) :
    (speedDown reg s).raindrops.map (fun d => (d.x, d.y, d.length, d.alpha)) =
      s.raindrops.map (fun d => (d.x, d.y, d.length, d.alpha)) := by
  unfold speedDown
  dsimp only
  split_ifs <;> first | rfl | exact setAllSpeeds_fields _

/-- The two speed blocks overwrite nothing but `speed`. -/
theorem speed_blocks_fields (reg keys : Nat) (s : Game) :
    (speedDown reg (speedUp reg (windControl keys s))).raindrops.map
        (fun d => (d.x, d.y, d.length, d.alpha)) =
      s.raindrops.map (fun d => (d.x, d.y, d.length, d.alpha)) := by
  rw [speedDown_fields, speedUp_fields, windControl_raindrops]

theorem alpha_of_fields (a b : List Raindrop)
    (h : a.map (fun d => (d.x, d.y, d.length, d.alpha)) =
      b.map (fun d => (d.x, d.y, d.length, d.alpha))) :
    a.map (fun d => d.alpha) = b.map (fun d => d.alpha) := by
  have := congrArg (List.map (fun t : Int × Int × Nat × Nat => t.2.2.2)) h
  simpa [List.map_map, Function.comp_def] using this

/-- In Rain state a rising edge of Start makes `HandleInput` run `InitRain`: the particles,
the `rand()` count, the speed level, the wind and the thunder timer are those of
`InitRain` run on the state before the call. -/
theorem HandleInput_rain_Start (rand : Nat → Nat) (reg : Nat) (s : Game)
    (h : s.gameState = GameState.STATE_RAIN)
    (hSt : ButtonPressed reg s.prevKeys KEY_START = true) :
    (HandleInput rand reg s).raindrops = (InitRain rand s).raindrops ∧
      (HandleInput rand reg s).randCalls = (InitRain rand s).randCalls ∧
      (HandleInput rand reg s).rainSpeed = DEFAULT_RAIN_SPEED ∧
      (HandleInput rand reg s).windForce = 0 ∧
      (HandleInput rand reg s).thunderTimer = 0 := by
  rw [HandleInput_rain rand reg s h]
  have hf := speed_blocks_fields reg (keysOf reg) s
  have ha := alpha_of_fields _ _ hf
  have hlen : (speedDown reg (speedUp reg (windControl (keysOf reg) s))).raindrops.length =
      s.raindrops.length := by
    have := congrArg List.length ha
    simpa using this
  have e : resetControl rand reg (bgCycle reg (thunderControl reg
      (speedDown reg (speedUp reg (windControl (keysOf reg) s))))) =
      InitRain rand { bgCycle reg (thunderControl reg
        (speedDown reg (speedUp reg (windControl (keysOf reg) s)))) with
        rainSpeed := DEFAULT_RAIN_SPEED } := by
    simp [resetControl, hSt]
  refine ⟨?_, ?_, ?_, ?_, ?_⟩
  · show (menuReturn reg _).raindrops = _
    rw [e]
    simp only [menuReturn_raindrops, InitRain, bgCycle_raindrops, thunderControl_raindrops,
      bgCycle_randCalls, thunderControl_randCalls, speedDown_randCalls, speedUp_randCalls,
      windControl_randCalls]
    exact initLoop_eq_of_alpha rand _ _ _ _ ha
  · show (menuReturn reg _).randCalls = _
    rw [e]
    simp only [menuReturn_randCalls, InitRain, bgCycle_raindrops, thunderControl_raindrops,
      bgCycle_randCalls, thunderControl_randCalls, speedDown_randCalls, speedUp_randCalls,
      windControl_randCalls, hlen]
  · show (menuReturn reg _).rainSpeed = _
    rw [e]
    simp [InitRain, RAIN_SPEED_MEDIUM, DEFAULT_RAIN_SPEED]
  · show (menuReturn reg _).windForce = _
    rw [e]
    simp [InitRain]
  · show (menuReturn reg _).thunderTimer = _
    rw [e]
    simp [InitRain]

/-- C7: the scene transitions of `HandleInput`. In Menu a rising edge of A moves to Rain and
runs `InitRain` (so `windForce = 0` and `thunderTimer = 0` on entry to Rain), and without it
nothing but `prevKeys` changes. In Rain a rising edge of B moves to Menu and does nothing
else (the outcome is that of the same call with B released, except for `gameState`; no
`rand()` call and no particle position changes unless Start fires too); without a rising edge
of B the state stays Rain; a rising edge of Start runs `InitRain` with `rainSpeed = 4`, and
stays in Rain when B has no rising edge. -/
theorem scene_transitions (rand : Nat → Nat) (reg : Nat) (s : Game) :
    (s.gameState = GameState.STATE_MENU → ButtonPressed reg s.prevKeys KEY_A = true →
        HandleInput rand reg s =
          { InitRain rand { s with gameState := GameState.STATE_RAIN } with
            prevKeys := keysOf reg } ∧
        (HandleInput rand reg s).gameState = GameState.STATE_RAIN ∧
        (HandleInput rand reg s).windForce = 0 ∧ (HandleInput rand reg s).thunderTimer = 0) ∧
      (s.gameState = GameState.STATE_MENU → ButtonPressed reg s.prevKeys KEY_A = false →
        HandleInput rand reg s = { s with prevKeys := keysOf reg } ∧
        (HandleInput rand reg s).gameState = GameState.STATE_MENU) ∧
      (s.gameState = GameState.STATE_RAIN → ButtonPressed reg s.prevKeys KEY_B = true →
        (HandleInput rand reg s).gameState = GameState.STATE_MENU ∧
        HandleInput rand reg s =
          { HandleInput rand (reg ||| KEY_B) s with
            gameState := GameState.STATE_MENU, prevKeys := keysOf reg } ∧
        (ButtonPressed reg s.prevKeys KEY_START = false →
          (HandleInput rand reg s).randCalls = s.randCalls ∧
          (HandleInput rand reg s).raindrops.map (fun d => (d.x, d.y, d.length, d.alpha)) =
            s.raindrops.map (fun d => (d.x, d.y, d.length, d.alpha)))) ∧
      (s.gameState = GameState.STATE_RAIN → ButtonPressed reg s.prevKeys KEY_B = false →
        (HandleInput rand reg s).gameState = GameState.STATE_RAIN) ∧
      (s.gameState = GameState.STATE_RAIN → ButtonPressed reg s.prevKeys KEY_START = true →
        (HandleInput rand reg s).raindrops = (InitRain rand s).raindrops ∧
        (HandleInput rand reg s).randCalls = (InitRain rand s).randCalls ∧
        (HandleInput rand reg s).rainSpeed = DEFAULT_RAIN_SPEED ∧
        (HandleInput rand reg s).windForce = 0 ∧
        (HandleInput rand reg s).thunderTimer = 0 ∧
        (ButtonPressed reg s.prevKeys KEY_B = false →
          (HandleInput rand reg s).gameState = GameState.STATE_RAIN)) := by
  refine ⟨?_, ?_, ?_, ?_, ?_⟩
  · intro h hA
    have e : HandleInput rand reg s =
        { InitRain rand { s with gameState := GameState.STATE_RAIN } with
          prevKeys := keysOf reg } := by
      rw [HandleInput_menu rand reg s h, if_pos hA]
    exact ⟨e, by rw [e]; rfl, by rw [e]; rfl, by rw [e]; rfl⟩
  · intro h hA
    have e : HandleInput rand reg s = { s with prevKeys := keysOf reg } := by
      rw [HandleInput_menu rand reg s h, if_neg (by simp [hA])]
    exact ⟨e, by rw [e]; exact h⟩
  · intro h hB
    refine ⟨?_, HandleInput_rain_B rand reg s h hB, ?_⟩
    · rw [HandleInput_gameState_rain rand reg s h, if_pos hB]
    · intro hSt
      obtain ⟨e1, -, e3⟩ := HandleInput_rain_noStart rand reg s h hSt
      exact ⟨e3, by rw [e1]; exact speed_blocks_fields reg (keysOf reg) s⟩
  · intro h hB
    rw [HandleInput_gameState_rain rand reg s h, if_neg (by simp [hB])]
  · intro h hSt
    obtain ⟨a1, a2, a3, a4, a5⟩ := HandleInput_rain_Start rand reg s h hSt
    refine ⟨a1, a2, a3, a4, a5, ?_⟩
    intro hB
    rw [HandleInput_gameState_rain rand reg s h, if_neg (by simp [hB])]

set_option maxRecDepth 100000 in
theorem scene_transitions_witness :
    ((boot zeroRand).gameState = GameState.STATE_MENU ∧
        ButtonPressed regA (boot zeroRand).prevKeys KEY_A = true ∧
        (HandleInput zeroRand regA (boot zeroRand)).gameState = GameState.STATE_RAIN) ∧
      (rainStart.gameState = GameState.STATE_RAIN ∧
        ButtonPressed regB rainStart.prevKeys KEY_B = true ∧
        (HandleInput zeroRand regB rainStart).gameState = GameState.STATE_MENU ∧
        (HandleInput zeroRand regB rainStart).randCalls = rainStart.randCalls) ∧
      (ButtonPressed regStart rainStart.prevKeys KEY_START = true ∧
        (HandleInput zeroRand regStart rainStart).gameState = GameState.STATE_RAIN ∧
        (HandleInput zeroRand regStart rainStart).randCalls = rainStart.randCalls + 600) ∧
      (ButtonPressed regStartB rainStart.prevKeys KEY_START = true ∧
        ButtonPressed regStartB rainStart.prevKeys KEY_B = true ∧
        (HandleInput zeroRand regStartB rainStart).gameState = GameState.STATE_MENU ∧
        (HandleInput zeroRand regStartB rainStart).randCalls = rainStart.randCalls + 600) :=
  ⟨⟨by decide, by decide,
      ((scene_transitions zeroRand regA (boot zeroRand)).1 (by decide) (by decide)).2.1⟩,
    ⟨by decide, by decide,
      ((scene_transitions zeroRand regB rainStart).2.2.1 (by decide) (by decide)).1,
      (((scene_transitions zeroRand regB rainStart).2.2.1 (by decide) (by decide)).2.2
        (by decide)).1⟩,
    ⟨by decide,
      ((scene_transitions zeroRand regStart rainStart).2.2.2.2 (by decide) (by decide)).2.2.2.2.2
        (by decide),
      by decide⟩,
    ⟨by decide, by decide,
      ((scene_transitions zeroRand regStartB rainStart).2.2.1 (by decide) (by decide)).1,
      by decide⟩⟩

/-! ## Seeding by InitRain -/

theorem initLoop_getElem? (rand : Nat → Nat) (rs : Nat) (ds : List Raindrop) (k i : Nat)
    (d' : Raindrop) (h : (initLoop rand rs ds k)[i]? = some d') :
    ∃ d, ds[i]? = some d ∧ d' = initDrop rand rs d (k + 4 * i) := by
  induction ds generalizing k i with
  | nil => simp [initLoop] at h
  | cons e ds ih =>
    cases i with
    | zero =>
      simp only [initLoop, List.getElem?_cons_zero, Option.some.injEq] at h
      exact ⟨e, by simp, by simpa using h.symm⟩
    | succ i =>
      simp only [initLoop, List.getElem?_cons_succ] at h
      obtain ⟨d, hd, he⟩ := ih (k + 4) i h
      refine ⟨d, by simpa using hd, ?_⟩
      rw [he]
      congr 1
      omega

theorem initDrop_fields (rand : Nat → Nat) (d : Raindrop) (k : Nat) :
    (initDrop rand 4 d k).x = (rand k : Int) % 240 ∧
      (initDrop rand 4 d k).y = -((rand (k + 1) : Int) % 100) ∧
      ((initDrop rand 4 d k).length : Int) = 2 + (rand (k + 2) : Int) % 4 ∧
      (initDrop rand 4 d k).speed = 4 + (rand (k + 3) : Int) % 2 := by
  simp only [initDrop, toS16, toS8, toU8, SCREEN_WIDTH, MIN_LENGTH, MAX_LENGTH]
  refine ⟨?_, ?_, ?_, ?_⟩ <;> omega

/-- C11 (amended): `InitRain` keeps the number of particles and, for every `rand()` stream,
gives particle `i` the values `x = rand() % 240`, `y = -(rand() % 100)`,
`length = 2 + rand() % 4` and `speed = rainSpeed + rand() % 2` from four consecutive calls;
so `x` is in [0, 240), `y` in [-99, 0] (0 included), `length` in [2, 5] and
`speed = rainSpeed + j` with `j` in {0, 1}; and `windForce = 0`, `thunderTimer = 0`. -/
theorem InitRain_seeds (rand : Nat → Nat) (s : Game) :
    (InitRain rand s).raindrops.length = s.raindrops.length ∧
      (∀ i d, (InitRain rand s).raindrops[i]? = some d →
        d.x = (rand (s.randCalls + 4 * i) : Int) % SCREEN_WIDTH ∧
        d.y = -((rand (s.randCalls + 4 * i + 1) : Int) % 100) ∧
        (d.length : Int) = 2 + (rand (s.randCalls + 4 * i + 2) : Int) % 4 ∧
        d.speed = ((InitRain rand s).rainSpeed : Int) + (rand (s.randCalls + 4 * i + 3) : Int) % 2) ∧
      (∀ d ∈ (InitRain rand s).raindrops,
        0 ≤ d.x ∧ d.x < SCREEN_WIDTH ∧ -99 ≤ d.y ∧ d.y ≤ 0 ∧ 2 ≤ d.length ∧ d.length ≤ 5 ∧
        (d.speed = ((InitRain rand s).rainSpeed : Int) ∨
          d.speed = ((InitRain rand s).rainSpeed : Int) + 1)) ∧
      (InitRain rand s).windForce = 0 ∧ (InitRain rand s).thunderTimer = 0 ∧
      (boot rand).raindrops.length = MAX_RAINDROPS := by
  refine ⟨?_, ?_, ?_, rfl, rfl, (Inv_boot rand).1⟩
  · simp [InitRain, initLoop_length]
  · intro i d hd
    obtain ⟨e, -, rfl⟩ := initLoop_getElem? rand _ _ _ i d hd
    obtain ⟨a1, a2, a3, a4⟩ := initDrop_fields rand e (s.randCalls + 4 * i)
    exact ⟨by simpa [SCREEN_WIDTH] using a1, a2, a3, by simpa [InitRain, RAIN_SPEED_MEDIUM] using a4⟩
  · intro d hd
    obtain ⟨e, j, rfl⟩ := initLoop_mem rand _ _ _ d hd
    obtain ⟨⟨-, -, b3, -, b5, b6, b7⟩, c1, c2, c3⟩ := initDrop_ok rand e j
    exact ⟨c1, by simpa [SCREEN_WIDTH] using c2, b3, c3, b6, b7,
      by simpa [InitRain, RAIN_SPEED_MEDIUM] using b5⟩

set_option maxRecDepth 100000 in
/-- C11 fails as stated: with `rand() % 100 = 0` a particle is seeded at `y = 0`, which is
not strictly negative; so it is for the first particle after `InitRain` at program start
with `zeroRand`. -/
theorem InitRain_y_zero :
    ((InitRain zeroRand staticInit).raindrops[0]?).map Raindrop.y = some 0 ∧
      ((boot zeroRand).raindrops[0]?).map Raindrop.y = some 0 := by
  decide

/-- C17: in every reachable state each of the `MAX_RAINDROPS` particles has `speed` equal
to `rainSpeed` or `rainSpeed + 1`, hence in [2, 7], and `length` in [2, 5]. -/
theorem speed_and_length_ranges (rand : Nat → Nat) (s : Game) (h : Reachable rand s) :
    s.raindrops.length = MAX_RAINDROPS ∧
      ∀ d ∈ s.raindrops,
        (d.speed = (s.rainSpeed : Int) ∨ d.speed = (s.rainSpeed : Int) + 1) ∧
        2 ≤ d.speed ∧ d.speed ≤ 7 ∧ 2 ≤ d.length ∧ d.length ≤ 5 := by
  obtain ⟨h1, h2, -, -, h5⟩ := Inv_of_Reachable rand s h
  refine ⟨h1, ?_⟩
  intro d hd
  obtain ⟨-, -, -, -, a5, a6, a7⟩ := h5 d hd
  refine ⟨a5, ?_, ?_, a6, a7⟩ <;> omega

theorem speed_and_length_ranges_witness :
    Reachable zeroRand rainAt156 ∧ rainAt156.raindrops.length = MAX_RAINDROPS ∧
      ∀ d ∈ rainAt156.raindrops,
        (d.speed = (rainAt156.rainSpeed : Int) ∨ d.speed = (rainAt156.rainSpeed : Int) + 1) ∧
        2 ≤ d.speed ∧ d.speed ≤ 7 ∧ 2 ≤ d.length ∧ d.length ≤ 5 :=
  ⟨Reachable_rainAt156, speed_and_length_ranges zeroRand rainAt156 Reachable_rainAt156⟩

/-! ## Menu prompt pulse -/

theorem UpdateGame_menuAlpha (rand : Nat → Nat) (s : Game)
    (h : s.gameState = GameState.STATE_MENU) :
    (UpdateGame rand s).frameCounter = (s.frameCounter + 1) % 4294967296 ∧
      (UpdateGame rand s).menuAlpha = menuPulse ((s.frameCounter + 1) % 4294967296) := by
  constructor <;> simp [UpdateGame, menuPulse, h]

theorem menuPulse_eq (n : Nat) : menuPulse n = 20 + ((n % 60) * 11) / 60 := by
  unfold menuPulse
  have h : n % 60 * 11 / 60 ≤ 10 := by
    have h1 : n % 60 < 60 := Nat.mod_lt _ (by norm_num)
    omega
  exact Nat.mod_eq_of_lt (by omega)

theorem pulse_step :
    ∀ m < 60, (m + 1 < 60 → m * 11 / 60 ≤ (m + 1) * 11 / 60 ∧
      (m + 1) * 11 / 60 ≤ m * 11 / 60 + 1) ∧ m * 11 / 60 ≤ 10 ∧ (m = 59 → m * 11 / 60 = 10) := by
  decide

/-- C18 (amended): in Menu state `UpdateGame` sets `menuAlpha` to
`menuPulse n = 20 + ((n mod 60) * 11) / 60` for the incremented frame counter `n`. For every
`n` it lies in [20, 30] and `menuPulse (n + 60) = menuPulse n`; from `n` to `n + 1` it
stays or rises by 1, except at the wrap `(n + 1) mod 60 = 0`, where it falls from 30 to 20
(a sawtooth). -/
theorem menuPulse_sawtooth (rand : Nat → Nat) :
    (∀ s, s.gameState = GameState.STATE_MENU →
        (UpdateGame rand s).menuAlpha = menuPulse (UpdateGame rand s).frameCounter) ∧
      (∀ n, menuPulse n = 20 + ((n % 60) * 11) / 60 ∧ 20 ≤ menuPulse n ∧ menuPulse n ≤ 30) ∧
      (∀ n, menuPulse (n + 60) = menuPulse n) ∧
      (∀ n, (n + 1) % 60 ≠ 0 →
        menuPulse n ≤ menuPulse (n + 1) ∧ menuPulse (n + 1) ≤ menuPulse n + 1) ∧
      (∀ n, (n + 1) % 60 = 0 → menuPulse n = 30 ∧ menuPulse (n + 1) = 20) := by
  refine ⟨?_, ?_, ?_, ?_, ?_⟩
  · intro s h
    obtain ⟨e1, e2⟩ := UpdateGame_menuAlpha rand s h
    rw [e1, e2]
  · intro n
    have h1 : n % 60 < 60 := Nat.mod_lt _ (by norm_num)
    have h2 := (pulse_step (n % 60) h1).2.1
    rw [menuPulse_eq]
    exact ⟨rfl, by omega, by omega⟩
  · intro n
    rw [menuPulse_eq, menuPulse_eq, Nat.add_mod_right]
  · intro n h
    have h1 : n % 60 < 60 := Nat.mod_lt _ (by norm_num)
    have e : (n + 1) % 60 = n % 60 + 1 := by omega
    have h2 := (pulse_step (n % 60) h1).1 (by omega)
    rw [menuPulse_eq, menuPulse_eq, e]
    omega
  · intro n h
    have h1 : n % 60 < 60 := Nat.mod_lt _ (by norm_num)
    have e : n % 60 = 59 := by omega
    have h2 := (pulse_step (n % 60) h1).2.2 e
    rw [menuPulse_eq, menuPulse_eq, h]
    omega

set_option maxRecDepth 100000 in
theorem menuPulse_sawtooth_witness :
    (boot zeroRand).gameState = GameState.STATE_MENU ∧
      (UpdateGame zeroRand (boot zeroRand)).menuAlpha =
        menuPulse (UpdateGame zeroRand (boot zeroRand)).frameCounter ∧
      ((7 + 1) % 60 ≠ 0 ∧ menuPulse 7 ≤ menuPulse (7 + 1) ∧ menuPulse (7 + 1) ≤ menuPulse 7 + 1) ∧
      ((119 + 1) % 60 = 0 ∧ menuPulse 119 = 30 ∧ menuPulse (119 + 1) = 20) :=
  ⟨by decide, (menuPulse_sawtooth zeroRand).1 (boot zeroRand) (by decide),
    ⟨by decide, (menuPulse_sawtooth zeroRand).2.2.2.1 7 (by decide)⟩,
    ⟨by decide, (menuPulse_sawtooth zeroRand).2.2.2.2 119 (by decide)⟩⟩

set_option maxRecDepth 1000000 in
/-- C18 fails as stated: between frame counters 59 and 60 the value changes by 10, from 30 to
20; so it does in the run from program start that stays in Menu, between the 59th and the
60th call of `UpdateGame`. -/
theorem menuPulse_jump :
    menuPulse 59 = 30 ∧ menuPulse 60 = 20 ∧
      (runTicks zeroRand (boot zeroRand) (List.replicate 59 regNone)).menuAlpha = 30 ∧
      (runTicks zeroRand (boot zeroRand) (List.replicate 60 regNone)).menuAlpha = 20 := by
  decide

/-! ## Channel bounds of BlendColors -/

theorem blendChannel_between (a b w : Nat) (ha : a < 32) (hb : b < 32) (hw : w ≤ 31) :
    blendChannel a b w = (a * (31 - w) + b * w) / 31 ∧
      min a b ≤ blendChannel a b w ∧ blendChannel a b w ≤ max a b := by
  rw [blendChannel_eq a b w hw]
  have hlo : min a b * 31 ≤ a * (31 - w) + b * w := by
    have e : min a b * 31 = min a b * (31 - w) + min a b * w := by
      rw [← Nat.mul_add, Nat.sub_add_cancel hw]
    rw [e]
    exact Nat.add_le_add (Nat.mul_le_mul_right _ (Nat.min_le_left a b))
      (Nat.mul_le_mul_right _ (Nat.min_le_right a b))
  have hhi : a * (31 - w) + b * w ≤ max a b * 31 := by
    have e : max a b * 31 = max a b * (31 - w) + max a b * w := by
      rw [← Nat.mul_add, Nat.sub_add_cancel hw]
    rw [e]
    exact Nat.add_le_add (Nat.mul_le_mul_right _ (Nat.le_max_left a b))
      (Nat.mul_le_mul_right _ (Nat.le_max_right a b))
  have h1 : min a b ≤ (a * (31 - w) + b * w) / 31 :=
    (Nat.le_div_iff_mul_le (by norm_num)).mpr hlo
  have h2 : (a * (31 - w) + b * w) / 31 ≤ max a b :=
    Nat.div_le_of_le_mul (Nat.mul_comm (max a b) 31 ▸ hhi)
  have h3 : max a b < 32 := by
    rcases Nat.le_total a b with h | h
    · rw [Nat.max_eq_right h]; exact hb
    · rw [Nat.max_eq_left h]; exact ha
  have h4 : (a * (31 - w) + b * w) / 31 % 256 = (a * (31 - w) + b * w) / 31 :=
    Nat.mod_eq_of_lt (by omega)
  rw [h4]
  exact ⟨rfl, h1, h2⟩

/-- C19: for every weight in [0, 31] and all inputs, `BlendColors` returns a value below
2^15 (bit 15 clear) whose three 5-bit channels each lie between the minimum and the maximum
of the corresponding channels of `c1` and `c2`; each channel is the exact quotient, so the
`u8` intermediate does not truncate. -/
theorem BlendColors_channel_bounds (c1 c2 w : Nat) (hw : w ≤ 31) :
    BlendColors c1 c2 w < 32768 ∧
      (min (c1 &&& 0x1F) (c2 &&& 0x1F) ≤ BlendColors c1 c2 w &&& 0x1F ∧
        BlendColors c1 c2 w &&& 0x1F ≤ max (c1 &&& 0x1F) (c2 &&& 0x1F)) ∧
      (min ((c1 >>> 5) &&& 0x1F) ((c2 >>> 5) &&& 0x1F) ≤ (BlendColors c1 c2 w >>> 5) &&& 0x1F ∧
        (BlendColors c1 c2 w >>> 5) &&& 0x1F ≤ max ((c1 >>> 5) &&& 0x1F) ((c2 >>> 5) &&& 0x1F)) ∧
      (min ((c1 >>> 10) &&& 0x1F) ((c2 >>> 10) &&& 0x1F) ≤
          (BlendColors c1 c2 w >>> 10) &&& 0x1F ∧
        (BlendColors c1 c2 w >>> 10) &&& 0x1F ≤
          max ((c1 >>> 10) &&& 0x1F) ((c2 >>> 10) &&& 0x1F)) ∧
      (∀ a b, a < 32 → b < 32 → blendChannel a b w = (a * (31 - w) + b * w) / 31) := by
  obtain ⟨hr1, hg1, hb1⟩ := channels_eq c1
  obtain ⟨hr2, hg2, hb2⟩ := channels_eq c2
  have m32 : ∀ n : Nat, n % 32 < 32 := fun n => Nat.mod_lt _ (by norm_num)
  obtain ⟨-, r1, r2⟩ := blendChannel_between (c1 % 32) (c2 % 32) w (m32 _) (m32 _) hw
  obtain ⟨-, g1, g2⟩ := blendChannel_between (c1 / 32 % 32) (c2 / 32 % 32) w (m32 _) (m32 _) hw
  obtain ⟨-, b1, b2⟩ :=
    blendChannel_between (c1 / 1024 % 32) (c2 / 1024 % 32) w (m32 _) (m32 _) hw
  have hmax : ∀ a b : Nat, a < 32 → b < 32 → max a b < 32 := by
    intro a b ha hb
    rcases Nat.le_total a b with h | h
    · rw [Nat.max_eq_right h]; exact hb
    · rw [Nat.max_eq_left h]; exact ha
  have R := hmax _ _ (m32 c1) (m32 c2)
  have G := hmax _ _ (m32 (c1 / 32)) (m32 (c2 / 32))
  have B := hmax _ _ (m32 (c1 / 1024)) (m32 (c2 / 1024))
  have e : BlendColors c1 c2 w =
      blendChannel (c1 % 32) (c2 % 32) w + 32 * blendChannel (c1 / 32 % 32) (c2 / 32 % 32) w +
        1024 * blendChannel (c1 / 1024 % 32) (c2 / 1024 % 32) w := by
    simp only [BlendColors, hr1, hg1, hb1, hr2, hg2, hb2]
    rw [RGB15_eq_add _ _ _ (by omega) (by omega)]
    omega
  obtain ⟨er, eg, eb⟩ := channels_eq (BlendColors c1 c2 w)
  simp only [Nat.shiftRight_zero] at er hr1 hr2
  rw [er, eg, eb, hr1, hr2, hg1, hg2, hb1, hb2, e]
  refine ⟨by omega, ⟨by omega, by omega⟩, ⟨by omega, by omega⟩, ⟨by omega, by omega⟩, ?_⟩
  intro a b ha hb
  exact (blendChannel_between a b w ha hb hw).1

theorem BlendColors_channel_bounds_witness :
    (20 : Nat) ≤ 31 ∧ BlendColors 0xFFFF 0x9084 20 = 13741 ∧
      BlendColors 0xFFFF 0x9084 20 < 32768 :=
  ⟨by decide, by decide, (BlendColors_channel_bounds 0xFFFF 0x9084 20 (by decide)).1⟩

/-! ## Streak fade of DrawRain -/

theorem rainFade_value :
    ∀ L : Nat, L < 6 → ∀ j : Nat, j < 6 →
      (2 ≤ L ∧ j < L → rainFade (L : Int) (j : Int) = ((L - j) * 31) / L) := by
  decide

theorem rainFade_order :
    ∀ L : Nat, L < 6 → ∀ j : Nat, j < 6 → ∀ k : Nat, k < 6 →
      (2 ≤ L ∧ j < k ∧ k < L → rainFade (L : Int) (k : Int) < rainFade (L : Int) (j : Int)) := by
  decide

theorem drawDrop_mem (bgColor : Nat) (d : Raindrop) (j : Nat) (hj : j < d.length)
    (hx : 0 ≤ d.x ∧ d.x < SCREEN_WIDTH) (hy : 0 ≤ d.y ∧ d.y + (d.length : Int) ≤ SCREEN_HEIGHT) :
    ({ row := d.y + (j : Int), col := d.x,
       color := if j = 0 then COLOR_RAIN_BRIGHT
         else BlendColors COLOR_RAIN_DIM bgColor (rainFade (d.length : Int) (j : Int)) } :
      PixelWrite) ∈ drawDrop bgColor d := by
  have hy1 : ¬ (d.y < 0 ∨ d.y ≥ SCREEN_HEIGHT) := by
    simp only [SCREEN_HEIGHT] at *
    omega
  have hin : d.y + (j : Int) ≥ 0 ∧ d.y + (j : Int) < SCREEN_HEIGHT ∧ d.x ≥ 0 ∧
      d.x < SCREEN_WIDTH := by
    simp only [SCREEN_HEIGHT, SCREEN_WIDTH] at *
    omega
  unfold drawDrop
  simp only [hy1, if_false]
  rw [List.mem_flatMap]
  exact ⟨j, List.mem_range.mpr hj, by simp [hin]⟩

/-- C14 (code behaviour): for a visible particle with `length` in [2, 5], `DrawRain` stores
the bright colour at the head and, at offsets `1 ≤ j < k < length`, the dim colour blended
toward the background with weight `rainFade length j = (length - j) * 31 / length`; this
weight is strictly smaller at the farther offset `k` than at `j`, so the streak blends less
into the background the farther the pixel is from the head. -/
theorem rainFade_decreasing (bgColor : Nat) (d : Raindrop) (j k : Nat)
    (hL : 2 ≤ d.length ∧ d.length ≤ 5) (hx : 0 ≤ d.x ∧ d.x < SCREEN_WIDTH)
    (hy : 0 ≤ d.y ∧ d.y + (d.length : Int) ≤ SCREEN_HEIGHT)
    (hj : 1 ≤ j) (hjk : j < k) (hk : k < d.length) :
    ({ row := d.y, col := d.x, color := COLOR_RAIN_BRIGHT } : PixelWrite) ∈ drawDrop bgColor d ∧
      ({ row := d.y + (j : Int), col := d.x,
         color := BlendColors COLOR_RAIN_DIM bgColor (rainFade (d.length : Int) (j : Int)) } :
        PixelWrite) ∈ drawDrop bgColor d ∧
      ({ row := d.y + (k : Int), col := d.x,
         color := BlendColors COLOR_RAIN_DIM bgColor (rainFade (d.length : Int) (k : Int)) } :
        PixelWrite) ∈ drawDrop bgColor d ∧
      rainFade (d.length : Int) (j : Int) = ((d.length - j) * 31) / d.length ∧
      rainFade (d.length : Int) (k : Int) < rainFade (d.length : Int) (j : Int) := by
  have m0 := drawDrop_mem bgColor d 0 (by omega) hx hy
  have mj := drawDrop_mem bgColor d j (by omega) hx hy
  have mk := drawDrop_mem bgColor d k hk hx hy
  have hj0 : ¬ j = 0 := by omega
  have hk0 : ¬ k = 0 := by omega
  simp only [hj0, if_false] at mj
  simp only [hk0, if_false] at mk
  simp only [if_true, Nat.cast_zero, add_zero] at m0
  exact ⟨m0, mj, mk, rainFade_value d.length (by omega) j (by omega) ⟨hL.1, by omega⟩,
    rainFade_order d.length (by omega) j (by omega) k (by omega) ⟨hL.1, hjk, hk⟩⟩

theorem rainFade_decreasing_witness :
    (1 : Nat) < 2 ∧ 2 < dropLen5.length ∧
      rainFade (dropLen5.length : Int) ((1 : Nat) : Int) = 24 ∧
      rainFade (dropLen5.length : Int) ((2 : Nat) : Int) = 18 ∧
      rainFade (dropLen5.length : Int) ((2 : Nat) : Int) <
        rainFade (dropLen5.length : Int) ((1 : Nat) : Int) :=
  ⟨by decide, by decide, by decide, by decide,
    (rainFade_decreasing 0 dropLen5 1 2 (by decide) (by decide) (by decide) (by decide)
      (by decide) (by decide)).2.2.2.2⟩

/-! ## Menu layout -/

/-- C15 (code behaviour): the start `x` of each of the six `DrawText` calls of `DrawMenu`,
next to the centred start `(240 - 8 * n) / 2` for the `n` characters of its string. Five lines
are centred; the first, "CLAUDE 3.7" with `n = 10`, starts at 84 instead of 80 because the
call uses `9 * 8`. -/
theorem menu_line_starts (menuAlpha : Nat) :
    (menuLines menuAlpha).map
        (fun t => (t.x, t.text.length, (SCREEN_WIDTH - 8 * (t.text.length : Int)) / 2)) =
      [(84, 10, 80), (80, 10, 80), (76, 11, 76), (84, 9, 84), (92, 7, 92), (84, 9, 84)] ∧
      ((menuLines menuAlpha).head?).map (fun t => t.text) = some (cstr "CLAUDE 3.7") := by
  constructor <;> rfl

/-! ## Glyph selection -/

set_option maxRecDepth 100000 in
theorem glyphIndex_fold : ∀ c < 256, 97 ≤ c → c ≤ 122 → glyphIndex c = glyphIndex (c - 32) := by
  decide

set_option maxRecDepth 100000 in
theorem glyphIndex_none :
    ∀ c < 256,
      ¬ (c = 32 ∨ (65 ≤ c ∧ c ≤ 90) ∨ (97 ≤ c ∧ c ≤ 122) ∨ (48 ≤ c ∧ c ≤ 57) ∨
        c = 60 ∨ c = 45 ∨ c = 62 ∨ c = 46) → glyphIndex c = none := by
  decide

set_option maxRecDepth 100000 in
theorem glyphIndex_some :
    ∀ c < 256,
      (c = 32 ∨ (65 ≤ c ∧ c ≤ 90) ∨ (97 ≤ c ∧ c ≤ 122) ∨ (48 ≤ c ∧ c ≤ 57) ∨
        c = 60 ∨ c = 45 ∨ c = 62 ∨ c = 46) → (glyphIndex c).isSome = true := by
  decide

/-- C13: `DrawChar` on a lower-case letter makes exactly the stores it makes on the
upper-case letter, so the frame buffer ends up the same; on a byte outside space, A-Z, a-z,
0-9, `<`, `-`, `>`, `.` it makes no store, so the frame buffer is unchanged; and these
characters are the ones that have a glyph. -/
theorem DrawChar_fold_and_skip (x y : Int) (color alpha : Nat) :
    (∀ c, 97 ≤ c → c ≤ 122 →
        DrawChar x y c color alpha = DrawChar x y (c - 32) color alpha ∧
        ∀ fb, store fb (DrawChar x y c color alpha) =
          store fb (DrawChar x y (c - 32) color alpha)) ∧
      (∀ c, c < 256 →
        ¬ (c = 32 ∨ (65 ≤ c ∧ c ≤ 90) ∨ (97 ≤ c ∧ c ≤ 122) ∨ (48 ≤ c ∧ c ≤ 57) ∨
          c = 60 ∨ c = 45 ∨ c = 62 ∨ c = 46) →
        DrawChar x y c color alpha = [] ∧ ∀ fb, store fb (DrawChar x y c color alpha) = fb) ∧
      (∀ c, c < 256 →
        (c = 32 ∨ (65 ≤ c ∧ c ≤ 90) ∨ (97 ≤ c ∧ c ≤ 122) ∨ (48 ≤ c ∧ c ≤ 57) ∨
          c = 60 ∨ c = 45 ∨ c = 62 ∨ c = 46) → (glyphIndex c).isSome = true) := by
  refine ⟨?_, ?_, fun c hc h => glyphIndex_some c hc h⟩
  · intro c h1 h2
    have e : DrawChar x y c color alpha = DrawChar x y (c - 32) color alpha := by
      unfold DrawChar
      rw [glyphIndex_fold c (by omega) h1 h2]
    exact ⟨e, fun fb => by rw [e]⟩
  · intro c hc h
    have e : DrawChar x y c color alpha = [] := by
      unfold DrawChar
      rw [glyphIndex_none c hc h]
    exact ⟨e, fun fb => by rw [e]; rfl⟩

theorem DrawChar_fold_and_skip_witness :
    DrawChar 10 10 97 COLOR_WHITE 31 = DrawChar 10 10 (97 - 32) COLOR_WHITE 31 ∧
      (DrawChar 10 10 65 COLOR_WHITE 31).length = 62 ∧
      DrawChar 10 10 64 COLOR_WHITE 31 = [] :=
  ⟨((DrawChar_fold_and_skip 10 10 COLOR_WHITE 31).1 97 (by decide) (by decide)).1, by decide,
    ((DrawChar_fold_and_skip 10 10 COLOR_WHITE 31).2.1 64 (by decide) (by decide)).1⟩

/-! ## Stores of the drawing functions stay inside the frame -/

theorem glyphPixel_eq (px py : Int) (color alpha : Nat) :
    glyphPixel px py color alpha =
      if px ≥ 0 ∧ px < SCREEN_WIDTH then
        (if px + 1 < SCREEN_WIDTH ∧ py + 1 < SCREEN_HEIGHT then
            [{ row := py + 1, col := px + 1, color := COLOR_TEXT_SHADOW }]
          else []) ++ [{ row := py, col := px, color := mainColor color alpha }]
      else [] := rfl

theorem glyphPixel_mem (px py : Int) (color alpha : Nat) (w : PixelWrite)
    (hy : 0 ≤ py ∧ py < SCREEN_HEIGHT) (h : w ∈ glyphPixel px py color alpha) :
    IsGlyphStore px py color alpha w := by
  rw [glyphPixel_eq] at h
  unfold IsGlyphStore
  split_ifs at h with h1 h2
  · simp only [List.mem_append, List.mem_singleton] at h
    rcases h with h | h
    · exact ⟨⟨h1.1, h1.2, hy.1, hy.2⟩, Or.inr ⟨h, h2.1, h2.2⟩⟩
    · exact ⟨⟨h1.1, h1.2, hy.1, hy.2⟩, Or.inl h⟩
  · simp only [List.nil_append, List.mem_singleton] at h
    exact ⟨⟨h1.1, h1.2, hy.1, hy.2⟩, Or.inl h⟩
  · simp at h

theorem glyphRow_mem (x y : Int) (index row : Nat) (color alpha : Nat) (w : PixelWrite)
    (h : w ∈ glyphRow x y index row color alpha) :
    ∃ bit, bit < 8 ∧ glyphLine index row &&& (0x80 >>> bit) ≠ 0 ∧
      IsGlyphStore (x + (bit : Int)) (y + (row : Int)) color alpha w := by
  unfold glyphRow at h
  dsimp only at h
  split_ifs at h with h1 h2
  · simp at h
  · rw [List.mem_flatMap] at h
    obtain ⟨bit, hb, hw⟩ := h
    split_ifs at hw with h3
    · exact ⟨bit, List.mem_range.mp hb, h3, glyphPixel_mem _ _ _ _ w ⟨h2.1, h2.2⟩ hw⟩
    · simp at hw
  · simp at h

theorem DrawChar_mem (x y : Int) (c color alpha : Nat) (w : PixelWrite)
    (h : w ∈ DrawChar x y c color alpha) :
    ∃ index row bit, glyphIndex c = some index ∧ row < 8 ∧ bit < 8 ∧
      glyphLine index row &&& (0x80 >>> bit) ≠ 0 ∧
      IsGlyphStore (x + (bit : Int)) (y + (row : Int)) color alpha w := by
  unfold DrawChar at h
  cases hg : glyphIndex c with
  | none => simp [hg] at h
  | some index =>
    simp only [hg] at h
    rw [List.mem_flatMap] at h
    obtain ⟨row, hr, hw⟩ := h
    obtain ⟨bit, hb, hs, hst⟩ := glyphRow_mem x y index row color alpha w hw
    exact ⟨index, row, bit, rfl, List.mem_range.mp hr, hb, hs, hst⟩

theorem DrawText_mem (x y : Int) (s : List Nat) (color alpha : Nat) (w : PixelWrite)
    (h : w ∈ DrawText x y s color alpha) :
    ∃ k c index row bit : Nat, s[k]? = some c ∧ glyphIndex c = some index ∧ row < 8 ∧
      bit < 8 ∧
      glyphLine index row &&& (0x80 >>> bit) ≠ 0 ∧
      IsGlyphStore (x + 8 * (k : Int) + (bit : Int)) (y + (row : Int)) color alpha w := by
  induction s generalizing x with
  | nil => simp [DrawText] at h
  | cons c cs ih =>
    unfold DrawText at h
    split_ifs at h with h0
    · simp at h
    · rw [List.mem_append] at h
      rcases h with h | h
      · obtain ⟨index, row, bit, h1, h2, h3, h4, h5⟩ := DrawChar_mem x y c color alpha w h
        exact ⟨0, c, index, row, bit, by simp, h1, h2, h3, h4, by simpa using h5⟩
      · obtain ⟨k, c', index, row, bit, h1, h2, h3, h4, h5, h6⟩ := ih (x + 8) h
        refine ⟨k + 1, c', index, row, bit, by simpa using h1, h2, h3, h4, h5, ?_⟩
        have e : x + 8 * ((k + 1 : Nat) : Int) + (bit : Int) = x + 8 + 8 * (k : Int) + (bit : Int) := by
          push_cast
          ring
        rw [e]
        exact h6

theorem InFrame_of_IsGlyphStore (px py : Int) (color alpha : Nat) (w : PixelWrite)
    (h : IsGlyphStore px py color alpha w) : InFrame w := by
  obtain ⟨⟨a1, a2, a3, a4⟩, h | ⟨h, b1, b2⟩⟩ := h
  · subst h
    exact ⟨a1, a2, a3, a4⟩
  · subst h
    unfold InFrame
    dsimp only
    exact ⟨by omega, b1, by omega, b2⟩

theorem DrawPixel_InFrame (x y : Int) (color : Nat) (w : PixelWrite)
    (h : w ∈ DrawPixel x y color) : InFrame w := by
  unfold DrawPixel at h
  split_ifs at h with h1
  · simp only [List.mem_singleton] at h
    subst h
    exact ⟨h1.1, h1.2.1, h1.2.2.1, h1.2.2.2⟩
  · simp at h

theorem ClearScreen_mem (color : Nat) (w : PixelWrite) (h : w ∈ ClearScreen color) :
    InFrame w ∧ w.color = color := by
  unfold ClearScreen at h
  rw [List.mem_flatMap] at h
  obtain ⟨i, hi, hw⟩ := h
  have hi2 : i < 19200 := by
    have := List.mem_range.mp hi
    simpa [SCREEN_WIDTH, SCREEN_HEIGHT] using this
  simp only [List.mem_cons, List.mem_singleton, List.not_mem_nil, or_false] at hw
  rcases hw with hw | hw <;> subst hw <;> refine ⟨?_, rfl⟩ <;> unfold InFrame <;>
    simp only [SCREEN_WIDTH, SCREEN_HEIGHT] <;> omega

theorem drawDrop_mem_iff (bgColor : Nat) (d : Raindrop) (w : PixelWrite)
    (h : w ∈ drawDrop bgColor d) :
    InFrame w ∧ w.col = d.x ∧ 0 ≤ d.y ∧ d.y < SCREEN_HEIGHT ∧
      ∃ j : Nat, j < d.length ∧ w.row = d.y + (j : Int) := by
  unfold drawDrop at h
  dsimp only at h
  split_ifs at h with h1
  · simp at h
  · rw [List.mem_flatMap] at h
    obtain ⟨j, hj, hw⟩ := h
    by_cases h2 : d.y + (j : Int) ≥ 0 ∧ d.y + (j : Int) < SCREEN_HEIGHT ∧ d.x ≥ 0 ∧
        d.x < SCREEN_WIDTH
    · rw [if_pos h2] at hw
      simp only [List.mem_singleton] at hw
      subst hw
      refine ⟨⟨h2.2.2.1, h2.2.2.2, h2.1, h2.2.1⟩, rfl, ?_, ?_, j, List.mem_range.mp hj, rfl⟩
      · omega
      · omega
    · rw [if_neg h2] at hw
      simp at hw

theorem DrawRain_InFrame (s : Game) (w : PixelWrite) (h : w ∈ DrawRain s) : InFrame w := by
  unfold DrawRain at h
  dsimp only at h
  rw [List.mem_append] at h
  rcases h with h | h
  · exact (ClearScreen_mem _ w h).1
  · rw [List.mem_flatMap] at h
    obtain ⟨d, -, hw⟩ := h
    exact (drawDrop_mem_iff _ d w hw).1

theorem DrawText_InFrame (x y : Int) (s : List Nat) (color alpha : Nat) (w : PixelWrite)
    (h : w ∈ DrawText x y s color alpha) : InFrame w := by
  obtain ⟨k, c, index, row, bit, -, -, -, -, -, h6⟩ := DrawText_mem x y s color alpha w h
  exact InFrame_of_IsGlyphStore _ _ _ _ w h6

theorem DrawGame_InFrame (s : Game) (w : PixelWrite) (h : w ∈ DrawGame s) : InFrame w := by
  unfold DrawGame at h
  split at h
  · unfold DrawMenu at h
    rw [List.mem_append] at h
    rcases h with h | h
    · exact (ClearScreen_mem _ w h).1
    · rw [List.mem_flatMap] at h
      obtain ⟨t, -, hw⟩ := h
      exact DrawText_InFrame _ _ _ _ _ w hw
  · exact DrawRain_InFrame s w h

set_option maxRecDepth 100000 in
theorem fontData_length : fontData.length = 41 * 8 := by
  decide

theorem glyphIndex_le (c index : Nat) (h : glyphIndex c = some index) : index ≤ 40 := by
  unfold glyphIndex at h
  dsimp only at h
  split_ifs at h <;> simp only [Option.some.injEq] at h <;> omega

theorem InFrame_index (w : PixelWrite) (h : InFrame w) :
    0 ≤ w.index ∧ w.index < SCREEN_WIDTH * SCREEN_HEIGHT := by
  unfold InFrame at h
  unfold PixelWrite.index
  simp only [SCREEN_WIDTH, SCREEN_HEIGHT] at *
  omega

/-- C12: every store of `DrawChar`, `DrawPixel` and `DrawRain` (and of `DrawGame` as a whole)
is at a cell `row * 240 + col` with `0 ≤ col < 240` and `0 ≤ row < 160`, hence inside the
38400 cells of the frame buffer, for every position, character, colour, alpha and particle
state; the index `(index << 3) + row` into `fontData` is below its length `41 * 8`; and a
pixel, a glyph box or a particle wholly outside the frame gives no store. -/
theorem draws_stay_in_frame :
    (∀ x y c color alpha, ∀ w ∈ DrawChar x y c color alpha, InFrame w) ∧
      (∀ x y color, ∀ w ∈ DrawPixel x y color, InFrame w) ∧
      (∀ s, ∀ w ∈ DrawRain s, InFrame w) ∧
      (∀ s, ∀ w ∈ DrawGame s, InFrame w) ∧
      (∀ w, InFrame w →
        (0 ≤ w.col ∧ w.col < 240 ∧ 0 ≤ w.row ∧ w.row < 160) ∧
        w.index = w.row * 240 + w.col ∧ 0 ≤ w.index ∧ w.index < 240 * 160) ∧
      (fontData.length = 41 * 8 ∧
        ∀ c index row, glyphIndex c = some index → row < 8 →
          (index <<< 3) + row < fontData.length) ∧
      (∀ x y color, ¬ (0 ≤ x ∧ x < 240 ∧ 0 ≤ y ∧ y < 160) → DrawPixel x y color = []) ∧
      (∀ x y c color alpha, (x + 7 < 0 ∨ 240 ≤ x ∨ y + 7 < 0 ∨ 160 ≤ y) →
        DrawChar x y c color alpha = []) ∧
      (∀ bgColor d, (d.x < 0 ∨ 240 ≤ d.x ∨ d.y < 0 ∨ 160 ≤ d.y) → drawDrop bgColor d = []) := by
  refine ⟨?_, ?_, DrawRain_InFrame, DrawGame_InFrame, ?_, ⟨fontData_length, ?_⟩, ?_, ?_, ?_⟩
  · intro x y c color alpha w hw
    obtain ⟨index, row, bit, -, -, -, -, h5⟩ := DrawChar_mem x y c color alpha w hw
    exact InFrame_of_IsGlyphStore _ _ _ _ w h5
  · intro x y color w hw
    exact DrawPixel_InFrame x y color w hw
  · intro w hw
    have hi := InFrame_index w hw
    unfold InFrame at hw
    simp only [SCREEN_WIDTH, SCREEN_HEIGHT] at hw hi
    exact ⟨hw, by simp [PixelWrite.index, SCREEN_WIDTH], hi.1, by simpa using hi.2⟩
  · intro c index row hc hr
    have h40 := glyphIndex_le c index hc
    rw [fontData_length, Nat.shiftLeft_eq]
    omega
  · intro x y color h
    unfold DrawPixel
    simp only [SCREEN_WIDTH, SCREEN_HEIGHT, ge_iff_le]
    rw [if_neg h]
  · intro x y c color alpha h
    apply List.eq_nil_iff_forall_not_mem.mpr
    intro w hw
    obtain ⟨index, row, bit, -, hr, hb, -, ⟨a1, a2, a3, a4⟩, -⟩ := DrawChar_mem x y c color alpha w hw
    simp only [SCREEN_WIDTH, SCREEN_HEIGHT] at a2 a4
    omega
  · intro bgColor d h
    apply List.eq_nil_iff_forall_not_mem.mpr
    intro w hw
    obtain ⟨⟨b1, b2, -, -⟩, e, c1, c2, -⟩ := drawDrop_mem_iff bgColor d w hw
    simp only [SCREEN_WIDTH, SCREEN_HEIGHT] at b2 c2
    omega

set_option maxRecDepth 100000 in
theorem draws_stay_in_frame_witness :
    (DrawChar 236 156 65 COLOR_WHITE 31).length = 10 ∧
      (∀ w ∈ DrawChar 236 156 65 COLOR_WHITE 31, InFrame w) ∧
      DrawChar 240 10 65 COLOR_WHITE 31 = [] ∧ DrawPixel (-1) 5 COLOR_WHITE = [] :=
  ⟨by decide, draws_stay_in_frame.1 236 156 65 COLOR_WHITE 31,
    draws_stay_in_frame.2.2.2.2.2.2.2.1 240 10 65 COLOR_WHITE 31 (by decide),
    draws_stay_in_frame.2.2.2.2.2.2.1 (-1) 5 COLOR_WHITE (by decide)⟩

/-! ## The alpha argument of DrawChar -/

theorem glyphPixel_getLast (px py : Int) (color alpha : Nat)
    (h : px ≥ 0 ∧ px < SCREEN_WIDTH) :
    (glyphPixel px py color alpha).getLast? =
      some { row := py, col := px, color := mainColor color alpha } := by
  rw [glyphPixel_eq, if_pos h]
  simp

set_option maxRecDepth 100000 in
theorem white_fade_step :
    ∀ a : Nat, a < 30 →
      (BlendColors COLOR_WHITE COLOR_MENU_BG (a + 1) &&& 0x1F ≤
          BlendColors COLOR_WHITE COLOR_MENU_BG a &&& 0x1F) ∧
        ((BlendColors COLOR_WHITE COLOR_MENU_BG (a + 1) >>> 5) &&& 0x1F ≤
          (BlendColors COLOR_WHITE COLOR_MENU_BG a >>> 5) &&& 0x1F) ∧
        ((BlendColors COLOR_WHITE COLOR_MENU_BG (a + 1) >>> 10) &&& 0x1F ≤
          (BlendColors COLOR_WHITE COLOR_MENU_BG a >>> 10) &&& 0x1F) := by
  decide

theorem white_fade_mono (a b : Nat) (hab : a ≤ b) (hb : b ≤ 30) :
    (BlendColors COLOR_WHITE COLOR_MENU_BG b &&& 0x1F ≤
        BlendColors COLOR_WHITE COLOR_MENU_BG a &&& 0x1F) ∧
      ((BlendColors COLOR_WHITE COLOR_MENU_BG b >>> 5) &&& 0x1F ≤
        (BlendColors COLOR_WHITE COLOR_MENU_BG a >>> 5) &&& 0x1F) ∧
      ((BlendColors COLOR_WHITE COLOR_MENU_BG b >>> 10) &&& 0x1F ≤
        (BlendColors COLOR_WHITE COLOR_MENU_BG a >>> 10) &&& 0x1F) := by
  induction b with
  | zero =>
    have e : a = 0 := by omega
    subst e
    exact ⟨Nat.le_refl _, Nat.le_refl _, Nat.le_refl _⟩
  | succ n ih =>
    rcases Nat.eq_or_lt_of_le hab with e | hlt
    · subst e
      exact ⟨Nat.le_refl _, Nat.le_refl _, Nat.le_refl _⟩
    · obtain ⟨i1, i2, i3⟩ := ih (by omega) (by omega)
      obtain ⟨s1, s2, s3⟩ := white_fade_step n (by omega)
      exact ⟨Nat.le_trans s1 i1, Nat.le_trans s2 i2, Nat.le_trans s3 i3⟩

/-! ## Draw order: the main pixel is stored after every shadow that falls on it -/

theorem store_append (fb : Int → Nat) (a b : List PixelWrite) :
    store fb (a ++ b) = store (store fb a) b := by
  unfold store
  rw [List.foldl_append]

theorem store_no_hit (ws : List PixelWrite) (i : Int) (h : ∀ w ∈ ws, w.index ≠ i)
    (fb : Int → Nat) : store fb ws i = fb i := by
  induction ws generalizing fb with
  | nil => rfl
  | cons w ws ih =>
    have e : store fb (w :: ws) = store (writeCell fb w) ws := rfl
    rw [e, ih (fun v hv => h v (List.mem_cons_of_mem _ hv))]
    unfold writeCell
    have hw : i ≠ w.index := fun e2 => h w (List.mem_cons_self _ _) e2.symm
    simp [hw]

/-- Last store wins: if the stores of `f r` leave `v` in cell `i` and no later element of the
loop stores to `i`, the whole loop leaves `v` there. -/
theorem store_flatMap_split (f : Nat → List PixelWrite) (l1 l2 : List Nat) (r : Nat) (i : Int)
    (v : Nat) (hr : ∀ fb, store fb (f r) i = v)
    (h2 : ∀ b ∈ l2, ∀ w ∈ f b, w.index ≠ i) (fb : Int → Nat) :
    store fb ((l1 ++ r :: l2).flatMap f) i = v := by
  rw [List.flatMap_append, List.flatMap_cons, store_append, store_append, store_no_hit _ i _ _]
  · exact hr _
  · intro w hw
    rw [List.mem_flatMap] at hw
    obtain ⟨b, hb, hwb⟩ := hw
    exact h2 b hb w hwb

theorem range_split (n r : Nat) (h : r < n) :
    ∃ l1 l2, List.range n = l1 ++ r :: l2 ∧ ∀ b ∈ l2, r < b ∧ b < n := by
  obtain ⟨l1, l2, e⟩ := List.append_of_mem (List.mem_range.mpr h)
  refine ⟨l1, l2, e, ?_⟩
  intro b hb
  have pw := List.pairwise_lt_range n
  rw [e, List.pairwise_append] at pw
  have hlt : r < b := List.rel_of_pairwise_cons pw.2.1 hb
  have hm : b ∈ List.range n := by
    rw [e]
    exact List.mem_append_right _ (List.mem_cons_of_mem _ hb)
  exact ⟨hlt, List.mem_range.mp hm⟩

/-- A glyph store for the bit at `(qx, qy)` misses the cell of the pixel `(px, py)` when
neither its main pixel nor its shadow is at `(px, py)`. -/
theorem IsGlyphStore_miss (px py qx qy : Int) (color alpha : Nat) (w : PixelWrite)
    (hw : IsGlyphStore qx qy color alpha w) (hp : 0 ≤ px ∧ px < SCREEN_WIDTH)
    (h1 : qy ≠ py ∨ qx ≠ px) (h2 : qy + 1 ≠ py ∨ qx + 1 ≠ px) :
    w.index ≠ py * SCREEN_WIDTH + px := by
  obtain ⟨⟨a1, a2, -, -⟩, h | ⟨h, b1, -⟩⟩ := hw
  · subst h
    unfold PixelWrite.index
    simp only [SCREEN_WIDTH] at *
    omega
  · subst h
    unfold PixelWrite.index
    simp only [SCREEN_WIDTH] at *
    omega

theorem glyphPixel_final (px py : Int) (color : Nat) (hp : 0 ≤ px ∧ px < SCREEN_WIDTH)
    (fb : Int → Nat) :
    store fb (glyphPixel px py color 31) (py * SCREEN_WIDTH + px) = color := by
  rw [glyphPixel_eq, if_pos ⟨hp.1, hp.2⟩, store_append]
  simp [store, writeCell, PixelWrite.index, mainColor]

theorem glyphLine_ne_zero (index row bit : Nat)
    (h : glyphLine index row &&& (0x80 >>> bit) ≠ 0) : glyphLine index row ≠ 0 := by
  intro e
  rw [e] at h
  simp at h

theorem glyphRow_final (x y : Int) (index row bit color : Nat) (hbit : bit < 8)
    (hset : glyphLine index row &&& (0x80 >>> bit) ≠ 0)
    (hx : 0 ≤ x + (bit : Int) ∧ x + (bit : Int) < SCREEN_WIDTH)
    (hy : 0 ≤ y + (row : Int) ∧ y + (row : Int) < SCREEN_HEIGHT) (fb : Int → Nat) :
    store fb (glyphRow x y index row color 31)
      ((y + (row : Int)) * SCREEN_WIDTH + (x + (bit : Int))) = color := by
  obtain ⟨l1, l2, e, hl2⟩ := range_split 8 bit hbit
  unfold glyphRow
  dsimp only
  rw [if_neg (glyphLine_ne_zero index row bit hset), if_pos ⟨hy.1, hy.2⟩, e]
  apply store_flatMap_split
  · intro fb2
    rw [if_pos hset]
    exact glyphPixel_final _ _ color hx fb2
  · intro b hb w hw
    split_ifs at hw with h3
    · have hst := glyphPixel_mem _ _ _ _ w hy hw
      have hlt := (hl2 b hb).1
      exact IsGlyphStore_miss _ _ _ _ _ _ w hst hx (Or.inr (by omega)) (Or.inl (by omega))
    · simp at hw

theorem DrawChar_final (x y : Int) (c index row bit color : Nat)
    (hi : glyphIndex c = some index) (hrow : row < 8) (hbit : bit < 8)
    (hset : glyphLine index row &&& (0x80 >>> bit) ≠ 0)
    (hx : 0 ≤ x + (bit : Int) ∧ x + (bit : Int) < SCREEN_WIDTH)
    (hy : 0 ≤ y + (row : Int) ∧ y + (row : Int) < SCREEN_HEIGHT) (fb : Int → Nat) :
    store fb (DrawChar x y c color 31)
      ((y + (row : Int)) * SCREEN_WIDTH + (x + (bit : Int))) = color := by
  obtain ⟨l1, l2, e, hl2⟩ := range_split 8 row hrow
  unfold DrawChar
  simp only [hi]
  rw [e]
  apply store_flatMap_split
  · intro fb2
    exact glyphRow_final x y index row bit color hbit hset hx hy fb2
  · intro r hr w hw
    obtain ⟨b, -, -, hst⟩ := glyphRow_mem x y index r color 31 w hw
    have hlt := (hl2 r hr).1
    exact IsGlyphStore_miss _ _ _ _ _ _ w hst hx (Or.inl (by omega)) (Or.inl (by omega))

/-- C16: after `DrawText(x, y, s, color, 31)` on a string `s` (no zero byte), every pixel
inside the frame that is a set bit `(row, bit)` of the glyph of the `k`-th character holds
`color`: no shadow store, of the same glyph or of another glyph of the string, comes after
the store of that main pixel to the same cell. -/
theorem DrawText_main_pixels_win (fb : Int → Nat) (x y : Int) (s : List Nat) (color : Nat)
    (hs : ∀ c ∈ s, c ≠ 0) (k c index row bit : Nat) (hc : s[k]? = some c)
    (hi : glyphIndex c = some index) (hrow : row < 8) (hbit : bit < 8)
    (hset : glyphLine index row &&& (0x80 >>> bit) ≠ 0)
    (hx : 0 ≤ x + 8 * (k : Int) + (bit : Int) ∧ x + 8 * (k : Int) + (bit : Int) < SCREEN_WIDTH)
    (hy : 0 ≤ y + (row : Int) ∧ y + (row : Int) < SCREEN_HEIGHT) :
    store fb (DrawText x y s color 31)
        ((y + (row : Int)) * SCREEN_WIDTH + (x + 8 * (k : Int) + (bit : Int))) = color ∧
      (color ≠ COLOR_TEXT_SHADOW →
        store fb (DrawText x y s color 31)
          ((y + (row : Int)) * SCREEN_WIDTH + (x + 8 * (k : Int) + (bit : Int))) ≠
            COLOR_TEXT_SHADOW) := by
  have key : store fb (DrawText x y s color 31)
      ((y + (row : Int)) * SCREEN_WIDTH + (x + 8 * (k : Int) + (bit : Int))) = color := by
    induction s generalizing x k fb with
    | nil => simp at hc
    | cons c0 cs ih =>
      have h0 : c0 ≠ 0 := hs c0 (List.mem_cons_self _ _)
      have e : DrawText x y (c0 :: cs) color 31 =
          DrawChar x y c0 color 31 ++ DrawText (x + 8) y cs color 31 := by
        rw [DrawText, if_neg h0]
      rw [e, store_append]
      cases k with
      | zero =>
        simp only [List.getElem?_cons_zero, Option.some.injEq] at hc
        subst hc
        simp only [Nat.cast_zero, mul_zero, add_zero] at hx ⊢
        rw [store_no_hit _ _ _ _]
        · exact DrawChar_final x y c0 index row bit color hi hrow hbit hset hx hy fb
        · intro w hw
          obtain ⟨k2, c2, i2, r2, b2, -, -, -, hb2, -, hst⟩ :=
            DrawText_mem (x + 8) y cs color 31 w hw
          exact IsGlyphStore_miss _ _ _ _ _ _ w hst hx (Or.inr (by omega)) (Or.inr (by omega))
      | succ k1 =>
        simp only [List.getElem?_cons_succ] at hc
        have ex : x + 8 * ((k1 + 1 : Nat) : Int) + (bit : Int) =
            x + 8 + 8 * (k1 : Int) + (bit : Int) := by
          push_cast
          ring
        rw [ex] at hx ⊢
        apply ih
        all_goals first
          | exact hc
          | exact hx
          | exact fun c1 h1 => hs c1 (List.mem_cons_of_mem _ h1)
  exact ⟨key, fun hne => by rw [key]; exact hne⟩

set_option maxRecDepth 100000 in
theorem DrawText_main_pixels_win_witness :
    (cstr "AB")[0]? = some 65 ∧ glyphIndex 65 = some 1 ∧
      glyphLine 1 0 &&& (0x80 >>> 3) ≠ 0 ∧ glyphLine 1 1 &&& (0x80 >>> 4) ≠ 0 ∧
      store (fun _ => 0) (DrawText 10 10 (cstr "AB") COLOR_WHITE 31)
        ((10 + ((1 : Nat) : Int)) * SCREEN_WIDTH + (10 + 8 * ((0 : Nat) : Int) + ((4 : Nat) : Int)))
          = COLOR_WHITE :=
  ⟨by decide, by decide, by decide, by decide,
    (DrawText_main_pixels_win (fun _ => 0) 10 10 (cstr "AB") COLOR_WHITE (by decide) 0 65 1 1 4
      (by decide) (by decide) (by decide) (by decide) (by decide) (by decide) (by decide)).1⟩

/-! ## The main pixel DrawChar stores, for every alpha -/

theorem glyphPixel_main (px py : Int) (color alpha : Nat) (hp : 0 ≤ px ∧ px < SCREEN_WIDTH)
    (fb : Int → Nat) :
    ({ row := py, col := px, color := mainColor color alpha } : PixelWrite) ∈
        glyphPixel px py color alpha ∧
      store fb (glyphPixel px py color alpha) (py * SCREEN_WIDTH + px) =
        mainColor color alpha := by
  rw [glyphPixel_eq, if_pos ⟨hp.1, hp.2⟩, store_append]
  constructor
  · simp
  · simp [store, writeCell, PixelWrite.index]

theorem glyphRow_main (x y : Int) (index row bit color alpha : Nat) (hbit : bit < 8)
    (hset : glyphLine index row &&& (0x80 >>> bit) ≠ 0)
    (hx : 0 ≤ x + (bit : Int) ∧ x + (bit : Int) < SCREEN_WIDTH)
    (hy : 0 ≤ y + (row : Int) ∧ y + (row : Int) < SCREEN_HEIGHT) (fb : Int → Nat) :
    ({ row := y + (row : Int), col := x + (bit : Int), color := mainColor color alpha } :
        PixelWrite) ∈ glyphRow x y index row color alpha ∧
      store fb (glyphRow x y index row color alpha)
        ((y + (row : Int)) * SCREEN_WIDTH + (x + (bit : Int))) = mainColor color alpha := by
  obtain ⟨l1, l2, e, hl2⟩ := range_split 8 bit hbit
  unfold glyphRow
  dsimp only
  rw [if_neg (glyphLine_ne_zero index row bit hset), if_pos ⟨hy.1, hy.2⟩]
  constructor
  · rw [List.mem_flatMap]
    refine ⟨bit, List.mem_range.mpr hbit, ?_⟩
    rw [if_pos hset]
    exact (glyphPixel_main _ _ color alpha hx fb).1
  · rw [e]
    apply store_flatMap_split
    · intro fb2
      rw [if_pos hset]
      exact (glyphPixel_main _ _ color alpha hx fb2).2
    · intro b hb w hw
      split_ifs at hw with h3
      · have hst := glyphPixel_mem _ _ _ _ w hy hw
        have hlt := (hl2 b hb).1
        exact IsGlyphStore_miss _ _ _ _ _ _ w hst hx (Or.inr (by omega)) (Or.inl (by omega))
      · simp at hw

theorem DrawChar_main (x y : Int) (c index row bit color alpha : Nat)
    (hi : glyphIndex c = some index) (hrow : row < 8) (hbit : bit < 8)
    (hset : glyphLine index row &&& (0x80 >>> bit) ≠ 0)
    (hx : 0 ≤ x + (bit : Int) ∧ x + (bit : Int) < SCREEN_WIDTH)
    (hy : 0 ≤ y + (row : Int) ∧ y + (row : Int) < SCREEN_HEIGHT) (fb : Int → Nat) :
    ({ row := y + (row : Int), col := x + (bit : Int), color := mainColor color alpha } :
        PixelWrite) ∈ DrawChar x y c color alpha ∧
      store fb (DrawChar x y c color alpha)
        ((y + (row : Int)) * SCREEN_WIDTH + (x + (bit : Int))) = mainColor color alpha := by
  obtain ⟨l1, l2, e, hl2⟩ := range_split 8 row hrow
  unfold DrawChar
  simp only [hi]
  constructor
  · rw [List.mem_flatMap]
    exact ⟨row, List.mem_range.mpr hrow,
      (glyphRow_main x y index row bit color alpha hbit hset hx hy fb).1⟩
  · rw [e]
    apply store_flatMap_split
    · intro fb2
      exact (glyphRow_main x y index row bit color alpha hbit hset hx hy fb2).2
    · intro r hr w hw
      obtain ⟨b, -, -, hst⟩ := glyphRow_mem x y index r color alpha w hw
      have hlt := (hl2 r hr).1
      exact IsGlyphStore_miss _ _ _ _ _ _ w hst hx (Or.inl (by omega)) (Or.inl (by omega))

/-- C20: in `DrawChar` the alpha argument is the weight of the menu background. For every
set bit `(row, bit)` of the glyph of `c` whose pixel is inside the frame, `DrawChar` makes
the store of that pixel with `BlendColors color COLOR_MENU_BG a` when `a < 31` and with
`color` itself when `a ≥ 31`, and that is the value the cell holds after `DrawChar`; the
main pixel is stored last in the body for a bit, and every store of `DrawChar` has that
colour or the shadow colour. For white text each channel of the blended pixel is
non-increasing in `a` over [0, 30], from white at `a = 0` down to the background colour at
`a = 30`; at `a = 31` the pixel is white, which differs from
`BlendColors white COLOR_MENU_BG 31`, the background colour. The menu prompt is drawn with
`menuAlpha`, which `UpdateGame` always computes below 31. -/
theorem DrawChar_alpha_is_background_weight :
    (∀ (fb : Int → Nat) (x y : Int) (c index row bit color a : Nat),
        glyphIndex c = some index → row < 8 → bit < 8 →
        glyphLine index row &&& (0x80 >>> bit) ≠ 0 →
        0 ≤ x + (bit : Int) ∧ x + (bit : Int) < SCREEN_WIDTH →
        0 ≤ y + (row : Int) ∧ y + (row : Int) < SCREEN_HEIGHT →
        ({ row := y + (row : Int), col := x + (bit : Int),
           color := if a < 31 then BlendColors color COLOR_MENU_BG a else color } :
          PixelWrite) ∈ DrawChar x y c color a ∧
        store fb (DrawChar x y c color a)
            ((y + (row : Int)) * SCREEN_WIDTH + (x + (bit : Int))) =
          if a < 31 then BlendColors color COLOR_MENU_BG a else color) ∧
      (∀ px py color a, 0 ≤ px → px < SCREEN_WIDTH →
        (glyphPixel px py color a).getLast? =
          some { row := py, col := px,
                 color := if a < 31 then BlendColors color COLOR_MENU_BG a else color }) ∧
      (∀ x y c color a, ∀ w ∈ DrawChar x y c color a,
        w.color = COLOR_TEXT_SHADOW ∨
          w.color = if a < 31 then BlendColors color COLOR_MENU_BG a else color) ∧
      (∀ a b, a ≤ b → b ≤ 30 →
        (BlendColors COLOR_WHITE COLOR_MENU_BG b &&& 0x1F ≤
            BlendColors COLOR_WHITE COLOR_MENU_BG a &&& 0x1F) ∧
          ((BlendColors COLOR_WHITE COLOR_MENU_BG b >>> 5) &&& 0x1F ≤
            (BlendColors COLOR_WHITE COLOR_MENU_BG a >>> 5) &&& 0x1F) ∧
          ((BlendColors COLOR_WHITE COLOR_MENU_BG b >>> 10) &&& 0x1F ≤
            (BlendColors COLOR_WHITE COLOR_MENU_BG a >>> 10) &&& 0x1F)) ∧
      BlendColors COLOR_WHITE COLOR_MENU_BG 0 = COLOR_WHITE ∧
      BlendColors COLOR_WHITE COLOR_MENU_BG 30 = COLOR_MENU_BG ∧
      BlendColors COLOR_WHITE COLOR_MENU_BG 31 = COLOR_MENU_BG ∧
      mainColor COLOR_WHITE 31 = COLOR_WHITE ∧
      mainColor COLOR_WHITE 31 ≠ BlendColors COLOR_WHITE COLOR_MENU_BG 31 ∧
      (∀ m, ((menuLines m)[4]?).map (fun t => (t.text, t.color, t.alpha)) =
        some (cstr "PRESS A", COLOR_WHITE, m)) ∧
      (∀ n, menuPulse n < 31) := by
  refine ⟨?_, ?_, ?_, white_fade_mono, by decide, by decide, by decide, by decide, by decide,
    fun m => rfl, ?_⟩
  · intro fb x y c index row bit color a hi hrow hbit hset hx hy
    exact DrawChar_main x y c index row bit color a hi hrow hbit hset hx hy fb
  · intro px py color a h1 h2
    exact glyphPixel_getLast px py color a ⟨h1, h2⟩
  · intro x y c color a w hw
    obtain ⟨index, row, bit, -, -, -, -, -, h | ⟨h, -, -⟩⟩ := DrawChar_mem x y c color a w hw
    · exact Or.inr (by rw [h]; rfl)
    · exact Or.inl (by rw [h])
  · intro n
    have h1 : n % 60 < 60 := Nat.mod_lt _ (by norm_num)
    have h2 := (pulse_step (n % 60) h1).2.1
    rw [menuPulse_eq]
    omega

set_option maxRecDepth 100000 in
theorem DrawChar_alpha_is_background_weight_witness :
    (glyphIndex 65 = some 1 ∧ glyphLine 1 0 &&& (0x80 >>> 3) ≠ 0) ∧
      (({ row := 10 + ((0 : Nat) : Int), col := 10 + ((3 : Nat) : Int),
          color := if 25 < 31 then BlendColors COLOR_WHITE COLOR_MENU_BG 25 else COLOR_WHITE } :
          PixelWrite) ∈ DrawChar 10 10 65 COLOR_WHITE 25 ∧
        store (fun _ => 0) (DrawChar 10 10 65 COLOR_WHITE 25)
            ((10 + ((0 : Nat) : Int)) * SCREEN_WIDTH + (10 + ((3 : Nat) : Int))) =
          if 25 < 31 then BlendColors COLOR_WHITE COLOR_MENU_BG 25 else COLOR_WHITE) ∧
      (DrawChar 10 10 65 COLOR_WHITE 25).length = 62 ∧
      (glyphPixel 10 10 COLOR_WHITE 25).getLast? =
        some { row := 10, col := 10, color := BlendColors COLOR_WHITE COLOR_MENU_BG 25 } ∧
      BlendColors COLOR_WHITE COLOR_MENU_BG 25 = RGB15 9 9 9 ∧
      BlendColors COLOR_WHITE COLOR_MENU_BG 20 = RGB15 13 13 13 :=
  ⟨⟨by decide, by decide⟩,
    DrawChar_alpha_is_background_weight.1 (fun _ => 0) 10 10 65 1 0 3 COLOR_WHITE 25 (by decide)
      (by decide) (by decide) (by decide) (by decide) (by decide),
    by decide,
    DrawChar_alpha_is_background_weight.2.1 10 10 COLOR_WHITE 25 (by decide) (by decide),
    by decide, by decide⟩

end HeavyRain
